import Mathlib

/-!
# Verification of `yt_view_count.py`

A shallow embedding, in Lean 4, of the core logic of the YouTube playlist
view-count aggregation script (`src/yt_view_count.py`), together with
theorems settling the specification claims about it.

Conventions of the embedding:
* Python strings are Lean `String`s; the Python substring test `a in b` is
  `strIn a b` (decidable infix test on the character lists).
* Python `int`/`float` values produced by the episode parser are `PyNum`
  (an `Int` or an exact rational standing for the float; float rounding only
  deviates beyond 15 significant digits, far outside the domain used here).
* JSON values decoded by `json.loads` are `PyVal` (with `NaN`/`Infinity`
  represented explicitly, as Python's decoder accepts them).
* Network interactions (`requests.get`/`requests.post`) are modelled by
  oracles: a list of pre-determined responses, one consumed per request.
  Each fetching function returns, besides its Python return value, the
  updated `quota_exceeded` flag and the number of HTTP requests performed.
  A raised Python exception is the `Except.error` case of the result.
-/

namespace YtViewCount

/-- Python's substring test `a in b` for strings (`str.__contains__`). -/
def strIn (a b : String) : Bool := decide (a.data <:+: b.data)

/-- A Python number as returned by `parse_episode_number`: an `int`, or a
`float` represented by its exact rational value. -/
inductive PyNum where
  | pint (n : Int)
  | pfloat (q : ℚ)
deriving DecidableEq, Repr

/-- Numeric value of a `PyNum` (Python compares `int` and `float` by value). -/
def PyNum.toRat : PyNum → ℚ
  | .pint n => n
  | .pfloat q => q

/-! ## Episode parser (`YouTubeDataProcessor.parse_episode_number`, lines 204-258)

Each regex in the source's `patterns` list has the shape
`marker  \s*  ([\.]?\s*)?  (\d+(?:\.\d+)?)  (\s*[cls])?`
where `marker` is a literal matched case-insensitively, the optional dot part
is present for the `Episode`/`Episod`/`EP` rules, and the trailing character
class `[集話]` is present only for the Chinese rule.  Because whitespace, `.`
and digits are pairwise disjoint character sets, a deterministic greedy
matcher is exactly equivalent to the backtracking regex engine on these
patterns.  `re.search` tries every start position left to right. -/

/-- One of the source's episode-number regular expressions. -/
structure EpPattern where
  marker : List Char
  optDot : Bool
  suffixCls : List Char
deriving DecidableEq, Repr

/-- Case-insensitive character comparison (`re.IGNORECASE`).  Lean's
`Char.toLower` folds ASCII letters, which covers the letters appearing in
the source's markers. -/
def ciEq (a b : Char) : Bool := a.toLower = b.toLower

/-- The characters matched by the regex `\s` (ASCII subset; the titles and
markers in play contain no exotic Unicode whitespace). -/
def isWs (c : Char) : Bool :=
  c = ' ' || c = '\t' || c = '\n' || c = '\r' || c = '\x0b' || c = '\x0c'

/-- The characters matched by the regex `\d` (ASCII digits). -/
def isDigitCh (c : Char) : Bool := c.isDigit

/-- Match `marker` case-insensitively at the head of `s`. -/
def matchMarker : List Char → List Char → Option (List Char)
  | [], s => some s
  | _ :: _, [] => none
  | m :: ms, c :: cs => if ciEq m c then matchMarker ms cs else none

/-- After the digits of `\d+`, try the optional `(?:\.\d+)?` part, returning
the captured fractional characters (including the dot) and the rest. -/
def matchFrac (s : List Char) : List Char × List Char :=
  match s with
  | '.' :: rest =>
    let fs := rest.takeWhile isDigitCh
    if fs.isEmpty then ([], s) else ('.' :: fs, rest.dropWhile isDigitCh)
  | _ => ([], s)

/-- Try to match pattern `p` anchored at the head of `s`; returns the text
captured by the single group `(\d+(?:\.\d+)?)`. -/
def matchAt (p : EpPattern) (s : List Char) : Option (List Char) :=
  match matchMarker p.marker s with
  | none => none
  | some s1 =>
    let s2 := s1.dropWhile isWs
    let s3 := if p.optDot then
        match s2 with
        | '.' :: rest => rest.dropWhile isWs
        | _ => s2
      else s2
    let ds := s3.takeWhile isDigitCh
    if ds.isEmpty then none
    else
      let s4 := s3.dropWhile isDigitCh
      let (fs, s5) := matchFrac s4
      if p.suffixCls.isEmpty then some (ds ++ fs)
      else
        match (s5.dropWhile isWs).head? with
        | some c => if p.suffixCls.contains c then some (ds ++ fs) else none
        | none => none

/-- `re.search`: try the pattern at each start position, left to right. -/
def reSearch (p : EpPattern) : List Char → Option (List Char)
  | [] => none
  | c :: rest =>
    match matchAt p (c :: rest) with
    | some cap => some cap
    | none => reSearch p rest

/-- The source's `patterns` list, in priority order (lines 214-234). -/
def patterns : List EpPattern :=
  [ ⟨"第".data, false, "集話".data⟩,
    ⟨"Episode".data, true, []⟩,
    ⟨"ตอนที่".data, false, []⟩,
    ⟨"Tập".data, false, []⟩,
    ⟨"Misi".data, false, []⟩,
    ⟨"Episod".data, true, []⟩,
    ⟨"EP".data, true, []⟩ ]

/-- Numeric value of a list of ASCII digits. -/
def digitsToNat (ds : List Char) : Nat :=
  ds.foldl (fun acc c => acc * 10 + (c.toNat - '0'.toNat)) 0

/-- `float(num_str)` followed by the `is_integer()` normalisation of the
source (lines 246-252), on a captured string of shape `\d+(\.\d+)?`.
The value is computed exactly. -/
def capToNum (cap : List Char) : PyNum :=
  let ds := cap.takeWhile isDigitCh
  let rest := cap.dropWhile isDigitCh
  match rest with
  | '.' :: fs =>
    let q : ℚ := (digitsToNat ds : ℚ) + (digitsToNat fs : ℚ) / ((10 : ℚ) ^ fs.length)
    if q.den = 1 then .pint q.num else .pfloat q
  | _ => .pint (digitsToNat ds)

/-- `YouTubeDataProcessor.parse_episode_number` (lines 204-258): first
pattern that matches wins; its captured group is converted (the conversion
of a `\d+(\.\d+)?` capture never fails, so the `except: continue` branch is
dead).  `None` when no pattern matches. -/
def parse_episode_number (title : String) : Option PyNum :=
  patterns.findSome? fun p => (reSearch p title.data).map capToNum

/-! ## A model of Python's `json.loads`

`process_anime` feeds the per-series offset cell through `json.loads`
(line 313).  The decoder below follows Python's `json` module with its
default settings: strict strings (no raw control characters), `NaN`,
`Infinity` and `-Infinity` accepted as numbers, objects decoded to `dict`
with later duplicate keys overwriting earlier values in place.  The one
deviation: a lone UTF-16 surrogate in a `\uXXXX` escape (which Python keeps
as a lone surrogate, unrepresentable in a Lean `Char`) becomes U+FFFD. -/

/-- A Python `float` as decoded from JSON: a finite value (kept exact as a
rational) or one of the special values. -/
inductive FloatV where
  | val (q : ℚ)
  | nan
  | inf
  | ninf
deriving DecidableEq, Repr

/-- A Python value as produced by `json.loads`. -/
inductive PyVal where
  | null
  | bool (b : Bool)
  | int (n : Int)
  | float (f : FloatV)
  | str (s : String)
  | list (xs : List PyVal)
  | dict (kvs : List (String × PyVal))

/-- `dict` update `m[k] = v`: overwrite in place if present, append if new
(Python dicts keep the first-insertion position of a key). -/
def dictInsert {α β : Type} [DecidableEq α] (m : List (α × β)) (k : α) (v : β) :
    List (α × β) :=
  match m with
  | [] => [(k, v)]
  | (k', v') :: rest => if k' = k then (k, v) :: rest else (k', v') :: dictInsert rest k v

/-- JSON whitespace (`' '`, `'\t'`, `'\n'`, `'\r'`). -/
def jsonWs (s : List Char) : List Char :=
  s.dropWhile fun c => c = ' ' || c = '\t' || c = '\n' || c = '\r'

/-- Value of one hexadecimal digit. -/
def hexVal (c : Char) : Option Nat :=
  if '0' ≤ c ∧ c ≤ '9' then some (c.toNat - '0'.toNat)
  else if 'a' ≤ c ∧ c ≤ 'f' then some (c.toNat - 'a'.toNat + 10)
  else if 'A' ≤ c ∧ c ≤ 'F' then some (c.toNat - 'A'.toNat + 10)
  else none

/-- Four hexadecimal digits, as in a `\uXXXX` escape. -/
def hex4 : List Char → Option (Nat × List Char)
  | a :: b :: c :: d :: rest => do
    let va ← hexVal a
    let vb ← hexVal b
    let vc ← hexVal c
    let vd ← hexVal d
    pure (((va * 16 + vb) * 16 + vc) * 16 + vd, rest)
  | _ => none

/-- Parse a JSON string body (the part after the opening quote), strict
mode: raw control characters are rejected, only the standard escapes are
accepted. -/
def parseStr : Nat → List Char → Option (List Char × List Char)
  | 0, _ => none
  | _, [] => none
  | fuel + 1, c :: rest =>
    if c = '"' then some ([], rest)
    else if c = '\\' then
      match rest with
      | [] => none
      | e :: r2 =>
        let simpleEsc : Option Char :=
          if e = '"' then some '"'
          else if e = '\\' then some '\\'
          else if e = '/' then some '/'
          else if e = 'b' then some '\x08'
          else if e = 'f' then some '\x0c'
          else if e = 'n' then some '\n'
          else if e = 'r' then some '\r'
          else if e = 't' then some '\t'
          else none
        match simpleEsc with
        | some ch => (parseStr fuel r2).map fun (cs, r) => (ch :: cs, r)
        | none =>
          if e = 'u' then
            match hex4 r2 with
            | none => none
            | some (n, r3) =>
              if 0xD800 ≤ n ∧ n < 0xDC00 then
                -- possible surrogate pair
                match r3 with
                | '\\' :: 'u' :: r4 =>
                  match hex4 r4 with
                  | some (m, r5) =>
                    if 0xDC00 ≤ m ∧ m < 0xE000 then
                      let code := 0x10000 + (n - 0xD800) * 0x400 + (m - 0xDC00)
                      (parseStr fuel r5).map fun (cs, r) => (Char.ofNat code :: cs, r)
                    else
                      (parseStr fuel r3).map fun (cs, r) => ('�' :: cs, r)
                  | none => (parseStr fuel r3).map fun (cs, r) => ('�' :: cs, r)
                | _ => (parseStr fuel r3).map fun (cs, r) => ('�' :: cs, r)
              else if 0xDC00 ≤ n ∧ n < 0xE000 then
                (parseStr fuel r3).map fun (cs, r) => ('�' :: cs, r)
              else
                (parseStr fuel r3).map fun (cs, r) => (Char.ofNat n :: cs, r)
          else none
    else if c.toNat < 0x20 then none
    else (parseStr fuel rest).map fun (cs, r) => (c :: cs, r)

/-- Parse a JSON number at the head of `s` (the grammar of Python's
`json.decoder.NUMBER_RE`): integers stay `int`, a fraction or exponent
makes a `float` (kept exact; Python's binary rounding deviates only beyond
double precision). -/
def parseNumber (s : List Char) : Option (PyVal × List Char) :=
  let (neg, s1) := match s with
    | '-' :: r => (true, r)
    | _ => (false, s)
  let ipart : Option (List Char × List Char) :=
    match s1 with
    | '0' :: r => some (['0'], r)
    | c :: r => if '1' ≤ c ∧ c ≤ '9' then
        some (c :: r.takeWhile isDigitCh, r.dropWhile isDigitCh)
      else none
    | [] => none
  match ipart with
  | none => none
  | some (ds, s2) =>
    let (fs, s3) : List Char × List Char :=
      match s2 with
      | '.' :: r =>
        let f := r.takeWhile isDigitCh
        if f.isEmpty then ([], s2) else (f, r.dropWhile isDigitCh)
      | _ => ([], s2)
    let (ex, s4) : Option (Bool × List Char) × List Char :=
      match s3 with
      | c :: r =>
        if c = 'e' ∨ c = 'E' then
          let (eneg, r2) := match r with
            | '-' :: rr => (true, rr)
            | '+' :: rr => (false, rr)
            | _ => (false, r)
          let eds := r2.takeWhile isDigitCh
          if eds.isEmpty then (none, s3) else (some (eneg, eds), r2.dropWhile isDigitCh)
        else (none, s3)
      | [] => (none, s3)
    let mag : ℚ := (digitsToNat ds : ℚ) + (digitsToNat fs : ℚ) / (10 : ℚ) ^ fs.length
    let mag : ℚ := match ex with
      | some (eneg, eds) =>
        if eneg then mag / (10 : ℚ) ^ digitsToNat eds else mag * (10 : ℚ) ^ digitsToNat eds
      | none => mag
    let signed : ℚ := if neg then -mag else mag
    if fs.isEmpty ∧ ex.isNone then
      some (.int (if neg then -(digitsToNat ds : Int) else (digitsToNat ds : Int)), s4)
    else
      some (.float (.val signed), s4)

mutual

/-- Parse one JSON value (no leading whitespace). -/
def parseVal : Nat → List Char → Option (PyVal × List Char)
  | 0, _ => none
  | fuel + 1, s =>
    match s with
    | [] => none
    | '"' :: r => (parseStr (fuel + 1) r).map fun (cs, rest) => (.str (String.mk cs), rest)
    | '[' :: r =>
      match jsonWs r with
      | ']' :: rest => some (.list [], rest)
      | r2 => (parseArrElems fuel r2).map fun (xs, rest) => (.list xs, rest)
    | '{' :: r =>
      match jsonWs r with
      | '}' :: rest => some (.dict [], rest)
      | r2 => (parseObjMembers fuel r2 []).map fun (kvs, rest) => (.dict kvs, rest)
    | 't' :: r => if r.take 3 = "rue".data then some (.bool true, r.drop 3) else none
    | 'f' :: r => if r.take 4 = "alse".data then some (.bool false, r.drop 4) else none
    | 'n' :: r => if r.take 3 = "ull".data then some (.null, r.drop 3) else none
    | 'N' :: r => if r.take 2 = "aN".data then some (.float .nan, r.drop 2) else none
    | 'I' :: r => if r.take 7 = "nfinity".data then some (.float .inf, r.drop 7) else none
    | '-' :: 'I' :: r =>
      if r.take 7 = "nfinity".data then some (.float .ninf, r.drop 7) else none
    | _ => parseNumber s

/-- Parse the elements of a non-empty JSON array (after `[` and leading
whitespace). -/
def parseArrElems : Nat → List Char → Option (List PyVal × List Char)
  | 0, _ => none
  | fuel + 1, s => do
    let (v, r) ← parseVal fuel s
    match jsonWs r with
    | ',' :: r2 => do
      let (vs, rest) ← parseArrElems fuel (jsonWs r2)
      pure (v :: vs, rest)
    | ']' :: rest => pure ([v], rest)
    | _ => none

/-- Parse the members of a non-empty JSON object (positioned at the first
key's opening quote). -/
def parseObjMembers : Nat → List Char → List (String × PyVal) →
    Option (List (String × PyVal) × List Char)
  | 0, _, _ => none
  | fuel + 1, s, acc =>
    match s with
    | '"' :: r => do
      let (kcs, r2) ← parseStr (fuel + 1) r
      match jsonWs r2 with
      | ':' :: r3 => do
        let (v, r4) ← parseVal fuel (jsonWs r3)
        let acc' := dictInsert acc (String.mk kcs) v
        match jsonWs r4 with
        | ',' :: r5 =>
          match jsonWs r5 with
          | '"' :: _ => parseObjMembers fuel (jsonWs r5) acc'
          | _ => none
        | '}' :: rest => pure (acc', rest)
        | _ => none
      | _ => none
    | _ => none

end

/-- Python's `json.loads`: decode one value, requiring only whitespace
around it.  `none` models a raised `json.JSONDecodeError`. -/
def json_loads (s : String) : Option PyVal :=
  match parseVal (2 * s.length + 2) (jsonWs s.data) with
  | some (v, rest) => if jsonWs rest = [] then some v else none
  | none => none

/-! ## Python value semantics used by the filter -/

/-- Python truthiness of a decoded JSON value. -/
def pyTruthy : PyVal → Bool
  | .null => false
  | .bool b => b
  | .int n => n ≠ 0
  | .float (.val q) => q ≠ 0
  | .float _ => true
  | .str s => s ≠ ""
  | .list xs => !xs.isEmpty
  | .dict kvs => !kvs.isEmpty

/-- Python's `start, end = x` two-target unpacking: succeeds for a
two-element list, a two-character string (yielding its characters) and a
two-key dict (yielding its keys); `none` models the raised
`TypeError`/`ValueError`. -/
def unpack2 : PyVal → Option (PyVal × PyVal)
  | .list [a, b] => some (a, b)
  | .list _ => none
  | .str s =>
    match s.data with
    | [a, b] => some (.str (String.mk [a]), .str (String.mk [b]))
    | _ => none
  | .dict [(k1, _), (k2, _)] => some (.str k1, .str k2)
  | .dict _ => none
  | _ => none

/-- Python `a <= b` where `b` is a (finite) number: defined for numbers and
bools (`True == 1`, `False == 0`); `none` models a raised `TypeError`. -/
def pyLeNum (a : PyVal) (b : ℚ) : Option Bool :=
  match a with
  | .int n => some (decide ((n : ℚ) ≤ b))
  | .float (.val q) => some (decide (q ≤ b))
  | .float .nan => some false
  | .float .inf => some false
  | .float .ninf => some true
  | .bool bb => some (decide ((if bb then (1 : ℚ) else 0) ≤ b))
  | _ => none

/-- Python `a <= b` where `a` is a (finite) number. -/
def pyNumLe (a : ℚ) (b : PyVal) : Option Bool :=
  match b with
  | .int n => some (decide (a ≤ (n : ℚ)))
  | .float (.val q) => some (decide (a ≤ q))
  | .float .nan => some false
  | .float .inf => some true
  | .float .ninf => some false
  | .bool bb => some (decide (a ≤ (if bb then (1 : ℚ) else 0)))
  | _ => none

/-! ## Title filter (`is_ignored_keyword`, `is_in_offset`, lines 260-299) -/

/-- `self.ignore_keywords` (lines 89-90). -/
def ignore_keywords : List String :=
  ["預告", "PV", "NCED", "NCOP", "OP", "ED", "Creditless", "Trailer", "Teaser",
   "Recap", "Special", "特別篇", "總集篇", "全集馬拉松", "Semua Episode",
   "Chia sẻ của DV lồng tiếng", "CM", "第二季製作決定", "精華重溫", "Preview"]

/-- `self.ignore_keywords_exceptions` (lines 92-94). -/
def ignore_keywords_exceptions : List (String × List String) :=
  [("CM", ["testCM動畫名稱"])]

/-- `YouTubeDataProcessor.is_ignored_keyword` (lines 288-299): the title is
ignored if it contains some keyword whose exception list (if any) has no
member contained in the title. -/
def is_ignored_keyword (title : String) : Bool :=
  ignore_keywords.any fun kw =>
    let excOk : Bool :=
      match ignore_keywords_exceptions.lookup kw with
      | some excs => excs.any fun exc => strIn exc title
      | none => false
    if excOk then false else strIn kw title

/-- The body of the `try` block of `is_in_offset` (lines 277-283):
`start, end = offset_range` followed by `start <= ep_idx <= end`; any raised
exception yields `False`, as does a failed comparison (Python's chained
comparison short-circuits, but every non-`True` outcome ends in `False`
here). -/
def rangeCheck (rng : PyVal) (ep : ℚ) : Bool :=
  match unpack2 rng with
  | none => false
  | some (a, b) =>
    match pyLeNum a ep with
    | none => false
    | some false => false
    | some true =>
      match pyNumLe ep b with
      | none => false
      | some r => r

/-- `YouTubeDataProcessor.is_in_offset` (lines 260-286). -/
def is_in_offset (title : String) (offset_range : Option PyVal)
    (offset_string : Option String) : Bool :=
  let strOk : Bool :=
    match offset_string with
    | some os => strIn os title
    | none => true
  if !strOk then false
  else
    match offset_range with
    | none => true
    | some rng =>
      match parse_episode_number title with
      | none => false
      | some ep => rangeCheck rng ep.toRat

/-- The offset resolution at the top of `process_anime` (lines 308-316): a
truthy offset string is fed to `json.loads`; on success it becomes
`offset_range`, on failure it becomes `offset_string`. -/
def resolve_offset (offset_str : Option String) : Option PyVal × Option String :=
  match offset_str with
  | none => (none, none)
  | some s =>
    if s = "" then (none, none)
    else
      match json_loads s with
      | some v => (some v, none)
      | none => (none, some s)

/-- The two offset guards of the filtering loop of `process_anime`
(lines 352-355): each is applied only when its operand is truthy. -/
def offset_pass (offset_range : Option PyVal) (offset_string : Option String)
    (title : String) : Bool :=
  let rOk : Bool :=
    match offset_range with
    | some v => if pyTruthy v then is_in_offset title (some v) none else true
    | none => true
  let sOk : Bool :=
    match offset_string with
    | some s => if s ≠ "" then is_in_offset title none (some s) else true
    | none => true
  rOk && sOk

/-- The complete per-title filter of `process_anime` (lines 344-357). -/
def passes_filter (offset_range : Option PyVal) (offset_string : Option String)
    (title : String) : Bool :=
  !is_ignored_keyword title && offset_pass offset_range offset_string title

/-- The effect of a raw offset specification string on one title: resolve it
as `process_anime` does, then apply the offset guards. -/
def offset_filter (offset_str : String) (title : String) : Bool :=
  let (r, s) := resolve_offset (some offset_str)
  offset_pass r s title

/-! ## Playlist fetch (`get_playlist_items`, lines 121-159)

The network is an oracle: one `PlaylistPageResp` per HTTP request the loop
would issue.  Results are `(value, quota_flag, request_count)`; the
`Except.error` case is a raised exception (`res.json()` on a malformed
200-body).  An exhausted oracle behaves like a final page with no items and
no continuation token. -/

/-- One playlist item of a response page (`snippet.title` and
`snippet.resourceId.videoId`; the id may be missing). -/
structure RawItem where
  videoId : Option String
  title : String
deriving DecidableEq, Repr

/-- One response to a `playlistItems` request, by its semantically distinct
cases: a 403 carrying a quota/rate-limit reason, a 404, some other non-200
status, a 200 with a malformed JSON body, or a proper page. -/
inductive PlaylistPageResp where
  | quotaErr
  | notFound
  | httpErr (code : Nat)
  | badJson
  | page (its : List RawItem) (hasNext : Bool)
deriving DecidableEq, Repr

/-- A playlist entry as accumulated by `get_playlist_items`. -/
structure PlaylistItem where
  id : String
  title : String
deriving DecidableEq, Repr

/-- The non-`None` return values of `get_playlist_items`: the `"REMOVED"`
sentinel or a list of items. -/
inductive PlaylistFetch where
  | removed
  | items (l : List PlaylistItem)
deriving DecidableEq, Repr

/-- The `while True` pagination loop of `get_playlist_items`
(lines 128-157). -/
def playlistLoop : List PlaylistPageResp → List PlaylistItem → Bool →
    Except Unit (Option PlaylistFetch) × Bool × Nat
  | [], acc, q => (.ok (some (.items acc)), q, 0)
  | r :: rest, acc, q =>
    match r with
    | .quotaErr => (.ok none, true, 1)
    | .notFound => (.ok (some .removed), q, 1)
    | .httpErr _ => (.ok (some (.items [])), q, 1)
    | .badJson => (.error (), q, 1)
    | .page its hasNext =>
      let acc' := acc ++ its.filterMap fun it =>
        match it.videoId with
        | some v => if v = "" then none else some ⟨v, it.title⟩
        | none => none
      if hasNext then
        let (res, q', n) := playlistLoop rest acc' q
        (res, q', n + 1)
      else (.ok (some (.items acc')), q, 1)

/-- `YouTubeDataProcessor.get_playlist_items` (lines 121-159): `None`
immediately when the quota flag is already set, otherwise the pagination
loop. -/
def get_playlist_items (quota : Bool) (pages : List PlaylistPageResp) :
    Except Unit (Option PlaylistFetch) × Bool × Nat :=
  if quota then (.ok none, quota, 0)
  else playlistLoop pages [] quota

/-! ## Statistics fetch (`get_video_stats`, lines 161-202) -/

/-- The outcome of `datetime.fromisoformat` on a `scheduledStartTime`
string: a `ValueError` or an absolute (timezone-aware) timestamp, modelled
as an integer so that only its order against "now" matters. -/
inductive IsoTime where
  | invalid
  | time (t : Int)
deriving DecidableEq, Repr

/-- One item of a `videos` response: its id, the scheduled premiere start
(when `liveStreamingDetails.scheduledStartTime` is present) and the raw
`statistics.viewCount` string (absent for member-only/hidden videos). -/
structure VideoEntry where
  id : String
  scheduledStart : Option IsoTime
  viewCount : Option String
deriving DecidableEq, Repr

/-- One response to a `videos` request. -/
inductive VideosResp where
  | quotaErr
  | httpErr (code : Nat)
  | badJson
  | ok (items : List VideoEntry)
deriving DecidableEq, Repr

/-- `stats_map`: video id to view count, `none` being Python's `None`
(hidden/member-only or not-yet-premiered). -/
abbrev StatsMap := List (String × Option Int)

/-- Python's `int()` on a string: optional surrounding whitespace, optional
sign, decimal digits (`int` also accepts underscores between digits and
non-ASCII decimal digits; neither occurs in YouTube view counts). `none`
models a raised `ValueError`. -/
def pyIntOfString (s : String) : Option Int :=
  let t := ((s.data.dropWhile isWs).reverse.dropWhile isWs).reverse
  let (neg, ds) :=
    match t with
    | '-' :: r => (true, r)
    | '+' :: r => (false, r)
    | _ => (false, t)
  if ds.isEmpty then none
  else if ds.all isDigitCh then
    some (if neg then -(digitsToNat ds : Int) else (digitsToNat ds : Int))
  else none

/-- Processing of one response item by `get_video_stats` (lines 179-200):
a future premiere is stored as `None`; otherwise a truthy `viewCount` is
converted with `int()` (a failure raises), and a missing/empty one is
stored as `None`. -/
def procEntry (now : Int) (m : StatsMap) (e : VideoEntry) : Except Unit StatsMap :=
  let fromViews : Except Unit StatsMap :=
    match e.viewCount with
    | some s =>
      if s ≠ "" then
        match pyIntOfString s with
        | some n => .ok (dictInsert m e.id (some n))
        | none => .error ()
      else .ok (dictInsert m e.id none)
    | none => .ok (dictInsert m e.id none)
  match e.scheduledStart with
  | some (.time t) => if t > now then .ok (dictInsert m e.id none) else fromViews
  | some .invalid => fromViews
  | none => fromViews

/-- Fold `procEntry` over a response's items. -/
def procItems (now : Int) (m : StatsMap) : List VideoEntry → Except Unit StatsMap
  | [] => .ok m
  | e :: es =>
    match procEntry now m e with
    | .error u => .error u
    | .ok m' => procItems now m' es

/-- The batch loop of `get_video_stats` (lines 169-200), one oracle
response per batch of at most 50 ids.  A quota detection returns the
partial map gathered so far; a non-200 status silently skips the batch. -/
def videosLoop (now : Int) : List (List String) → List VideosResp → StatsMap → Bool →
    Except Unit StatsMap × Bool × Nat
  | [], _, m, q => (.ok m, q, 0)
  | _ :: _, [], m, q => (.ok m, q, 0)
  | _ :: bs, r :: rs, m, q =>
    match r with
    | .quotaErr => (.ok m, true, 1)
    | .httpErr _ =>
      let (res, q', n) := videosLoop now bs rs m q
      (res, q', n + 1)
    | .badJson => (.error (), q, 1)
    | .ok items =>
      match procItems now m items with
      | .error u => (.error u, q, 1)
      | .ok m' =>
        let (res, q', n) := videosLoop now bs rs m' q
        (res, q', n + 1)

/-- `YouTubeDataProcessor.get_video_stats` (lines 161-202). -/
def get_video_stats (quota : Bool) (now : Int) (video_ids : List String)
    (resps : List VideosResp) : Except Unit StatsMap × Bool × Nat :=
  if quota || video_ids.isEmpty then (.ok [], quota, 0)
  else videosLoop now (video_ids.toChunks 50) resps [] quota

/-! ## Anime aggregator (`process_anime`, lines 301-420) -/

/-- `YouTubeDataProcessor.get_playlist_id` (lines 110-119):
`parse_qs(urlparse(url).query)['list'][0]`.  The query is the text between
the first `?` (before any `#`) and the fragment; pairs are split on `&`,
keys split at the first `=`, blank values dropped.  Percent-decoding and
`+`-to-space are not modelled (playlist ids never contain them). -/
def get_playlist_id (url : Option String) : Option String :=
  match url with
  | none => none
  | some u =>
    if u = "" then none
    else
      let beforeFrag := u.data.takeWhile (· ≠ '#')
      match beforeFrag.dropWhile (· ≠ '?') with
      | [] => none
      | _ :: q =>
        (((String.mk q).splitOn "&").filterMap fun p =>
          match p.splitOn "=" with
          | [] => none
          | [_] => none
          | k :: vs =>
            let v := String.intercalate "=" vs
            if k = "list" ∧ v ≠ "" then some v else none).head?

/-- A value written into a sheet cell / stored in the result dict of
`process_anime`: a Python `int`, a string sentinel, or `None`. -/
inductive CellVal where
  | int (n : Int)
  | str (s : String)
  | null
deriving DecidableEq, Repr

/-- The result dict of `process_anime` (lines 321-327). -/
structure AnimeResult where
  avg : CellVal
  total : CellVal
  first : CellVal
  valid_count : CellVal
  ep_count_update : CellVal
deriving DecidableEq, Repr

/-- The initialised result dict: all sentinels `"---"`, zero valid count
(lines 321-327). -/
def defaultResult : AnimeResult :=
  ⟨.str "---", .str "---", .str "---", .int 0, .null⟩

/-- `{k: "已下架" for k in result}` (line 337): every key of the dict —
including `valid_count` and `ep_count_update` — becomes the delisted
sentinel. -/
def removedResult : AnimeResult :=
  ⟨.str "已下架", .str "已下架", .str "已下架", .str "已下架", .str "已下架"⟩

/-- The sort key of lines 377-380: the parsed episode index, or `999999`
for an unparseable title. -/
def sortKey (v : PlaylistItem) : ℚ :=
  match parse_episode_number v.title with
  | some n => n.toRat
  | none => 999999

/-- `sorted_videos.sort(key=...)` (line 383): Python's sort is stable and
ascending, and a stable ascending sort of a list is unique, so any stable
sorting algorithm is the same function; insertion sort is used because it
is structurally recursive (hence computable by the kernel). -/
def sortVideos (vs : List PlaylistItem) : List PlaylistItem :=
  vs.insertionSort fun a b => sortKey a ≤ sortKey b

/-- `stats.get(vid)` for one surviving video (line 390): `none` both when
the id is absent from the map and when it is stored as `None`. -/
def sample (stats : StatsMap) (v : PlaylistItem) : Option Int :=
  (List.lookup v.id stats).join

/-- The accumulator of the reduction loop (lines 369-403). -/
structure ReduceAcc where
  total : Int
  cnt : Nat
  first : Option CellVal
  hasAny : Bool
deriving DecidableEq, Repr

/-- One iteration of the loop of lines 388-403. -/
def reduceStep (stats : StatsMap) (acc : ReduceAcc) (v : PlaylistItem) : ReduceAcc :=
  let views := sample stats v
  let acc1 :=
    match views with
    | some n => { acc with total := acc.total + n, cnt := acc.cnt + 1, hasAny := true }
    | none => acc
  match acc1.first with
  | some _ => acc1
  | none =>
    { acc1 with
      first := some (match views with | some n => .int n | none => .str "---") }

/-- `int(total_views / valid_view_count)`: Python's true division followed
by `int()` truncation toward zero, computed exactly (float rounding only
matters beyond double precision). -/
def pyIntOfRat (q : ℚ) : Int := if 0 ≤ q then ⌊q⌋ else ⌈q⌉

/-- Lines 405-418: turning the final accumulator into the result dict. -/
def accResult (valid_videos : List PlaylistItem) (acc : ReduceAcc) : AnimeResult :=
  if !acc.hasAny then defaultResult
  else
    { avg := .int (if acc.cnt > 0 then pyIntOfRat ((acc.total : ℚ) / (acc.cnt : ℚ)) else 0),
      total := .int acc.total,
      first := acc.first.getD (.str "---"),
      valid_count := .int (valid_videos.length : Int),
      ep_count_update := .null }

/-- The statistics reduction of `process_anime` (lines 368-420), applied to
the filtered video list and the fetched stats map. -/
def computeStats (valid_videos : List PlaylistItem) (stats : StatsMap) : AnimeResult :=
  accResult valid_videos
    ((sortVideos valid_videos).foldl (reduceStep stats) ⟨0, 0, none, false⟩)

/-- The oracle for the network traffic of one `process_anime` call. -/
structure FetchEnv where
  pages : List PlaylistPageResp
  vids : List VideosResp
  now : Int
deriving Repr

/-- One record of a sheet's schedule, as consumed by `process_anime` and
`process_single_sheet`.  Optional cell references use `""` for a
missing/blank cell (Python tests them for truthiness). -/
structure AnimeItem where
  link_url : Option String
  offset : Option String
  name_cell : String
  anime_name : String
  rank_cell : String
  avg_view_cell : String
  total_view_cell : String
  first_view_cell : String
  ep_count_cell : String
  comp_rank_cell : String
deriving DecidableEq, Repr

/-- `YouTubeDataProcessor.process_anime` (lines 301-420).  Returns the
Python return value (`None` or the result dict), the quota flag and the
number of HTTP requests. -/
def process_anime (quota : Bool) (env : FetchEnv) (anime : AnimeItem) :
    Except Unit (Option AnimeResult) × Bool × Nat :=
  if quota then (.ok none, quota, 0)
  else
    let (offset_range, offset_string) := resolve_offset anime.offset
    match get_playlist_id anime.link_url with
    | none => (.ok none, quota, 0)
    | some _ =>
      match get_playlist_items quota env.pages with
      | (.error u, q, n) => (.error u, q, n)
      | (.ok none, q, n) =>
        -- the quota flag was raised inside the fetch: `items` is `None`,
        -- which falls into the `if not items` branch and yields defaults
        (.ok (some defaultResult), q, n)
      | (.ok (some .removed), q, n) => (.ok (some removedResult), q, n)
      | (.ok (some (.items items)), q, n) =>
        if items.isEmpty then (.ok (some defaultResult), q, n)
        else
          let valid := items.filter fun it =>
            passes_filter offset_range offset_string it.title
          if valid.isEmpty then (.ok (some defaultResult), q, n)
          else
            match get_video_stats q env.now (valid.map (·.id)) env.vids with
            | (.error u, q2, n2) => (.error u, q2, n + n2)
            | (.ok stats, q2, n2) =>
              if q2 then (.ok none, q2, n + n2)
              else (.ok (some (computeStats valid stats)), q2, n + n2)

/-! ## Sheet processing (`process_single_sheet`, lines 443-627)

The sheet data (the result of the backing-store read) is the input; the
network oracle supplies one `FetchEnv` per `process_anime` call, consumed
in processing order.  Because Python recomputes `int(name_cell[1:])`
deterministically at every use, the row index is computed once per record
and carried in the `RegionEntry`. -/

/-- One cell update `{"cell": ..., "value": ...}`. -/
structure RowUpdate where
  cell : String
  value : CellVal
deriving DecidableEq, Repr

/-- One element of `updates_batch` (lines 535-539, 563-567, 607-611). -/
structure RowPlan where
  row_check_name : String
  target_row : Int
  updates : List RowUpdate
deriving DecidableEq, Repr

/-- One element of `region_results` together with its row index. -/
structure RegionEntry where
  anime : AnimeItem
  row : Int
  stats : Option AnimeResult
deriving DecidableEq, Repr

/-- `int(anime['name_cell'][1:])` (lines 477, 514, 521, 594); `none` is a
raised exception. -/
def rowIdxOf (a : AnimeItem) : Option Int :=
  pyIntOfString (String.mk a.name_cell.data.tail)

/-- `isinstance(stats.get('avg'), int)` extraction used by ranking and the
cross-region accumulator (lines 496, 505). -/
def avgInt : Option AnimeResult → Option Int
  | some s => match s.avg with | .int n => some n | _ => none
  | none => none

/-- `m.get(k, d)`. -/
def lookupD {α β : Type} [BEq α] (m : List (α × β)) (k : α) (d : β) : β :=
  (List.lookup k m).getD d

/-- The cross-region accumulation of one series (lines 494-498): only a
real-`int` average is added. -/
def accum_avg_step (m : List (Int × Int)) (e : RegionEntry) : List (Int × Int) :=
  match avgInt e.stats with
  | some n => dictInsert m e.row (lookupD m e.row 0 + n)
  | none => m

/-- The sheet-level mutable state threaded through the region loop. -/
structure SheetState where
  quota : Bool
  envs : List FetchEnv
  comp_cells : List (Int × String)
  avg_sum : List (Int × Int)

/-- Result of the first (fetching) phase of one region. -/
inductive Phase1Out where
  | abort
  | raised
  | entries (l : List RegionEntry)

/-- Phase one of a region (lines 471-498): the quota check at the top of
each iteration, comprehensive-rank cell recording, the `process_anime`
call, and cross-region average accumulation. -/
def region_phase1 (st : SheetState) : List AnimeItem → Phase1Out × SheetState
  | [] => (.entries [], st)
  | a :: rest =>
    if st.quota then (.abort, st)
    else
      match rowIdxOf a with
      | none => (.raised, st)
      | some row =>
        let comp' :=
          if a.comp_rank_cell ≠ "" then dictInsert st.comp_cells row a.comp_rank_cell
          else st.comp_cells
        let (env, envs') :=
          match st.envs with
          | [] => (⟨[], [], 0⟩, ([] : List FetchEnv))
          | e :: es => (e, es)
        match process_anime st.quota env a with
        | (.error _, q', _) =>
          (.raised, { st with quota := q', envs := envs', comp_cells := comp' })
        | (.ok stats, q', _) =>
          let entry : RegionEntry := ⟨a, row, stats⟩
          let st' : SheetState :=
            ⟨q', envs', comp', accum_avg_step st.avg_sum entry⟩
          match region_phase1 st' rest with
          | (.entries l, st'') => (.entries (entry :: l), st'')
          | other => other

/-- `{row: i+1}` rank assignment from an already-sorted row list
(lines 512-515 and 585). -/
def ranksOf : List Int → Nat → List (Int × Nat) → List (Int × Nat)
  | [], _, m => m
  | row :: rs, i, m => ranksOf rs (i + 1) (dictInsert m row (i + 1))

/-- Phase two of a region (lines 500-509): filter to real-`int` averages,
stable sort descending by average (`reverse=True` keeps ties in input
order; see `sortVideos` for the choice of algorithm). -/
def region_valid_sorted (entries : List RegionEntry) : List RegionEntry :=
  (entries.filter fun e => (avgInt e.stats).isSome).insertionSort
    fun x y => (avgInt y.stats).getD 0 ≤ (avgInt x.stats).getD 0

/-- The region's `rank_map` (lines 511-515). -/
def region_rank_map (entries : List RegionEntry) : List (Int × Nat) :=
  ranksOf ((region_valid_sorted entries).map (·.row)) 0 []

/-- The cell updates of one row in phase three (lines 517-560), together
with the updated `row_max_ep_map`.  The episode-count comparison with a
non-`int` `valid_count` raises a `TypeError` swallowed by the
`except: pass` of lines 554-560, so nothing is emitted then. -/
def row_updates_for (rank_map : List (Int × Nat)) (maxm : List (Int × Int))
    (e : RegionEntry) : List RowUpdate × List (Int × Int) :=
  let ru : List RowUpdate :=
    if e.anime.rank_cell ≠ "" then
      match List.lookup e.row rank_map with
      | some r => [⟨e.anime.rank_cell, .int (r : Int)⟩]
      | none => [⟨e.anime.rank_cell, .str ""⟩]
    else []
  match e.stats with
  | none => (ru, maxm)
  | some s =>
    let ru := ru ++
      (if e.anime.avg_view_cell ≠ "" then [⟨e.anime.avg_view_cell, s.avg⟩] else []) ++
      (if e.anime.total_view_cell ≠ "" then [⟨e.anime.total_view_cell, s.total⟩] else []) ++
      (if e.anime.first_view_cell ≠ "" then [⟨e.anime.first_view_cell, s.first⟩] else [])
    match s.valid_count with
    | .int n =>
      if n > lookupD maxm e.row 0 then
        (ru ++ (if e.anime.ep_count_cell ≠ "" then [⟨e.anime.ep_count_cell, .int n⟩] else []),
         dictInsert maxm e.row n)
      else (ru, maxm)
    | _ => (ru, maxm)

/-- Phase three of a region (lines 517-567): build each row's updates and
append the non-empty ones to the batch. -/
def region_phase3 (rank_map : List (Int × Nat)) :
    List RegionEntry → List (Int × Int) → List RowPlan → List RowPlan × List (Int × Int)
  | [], maxm, batch => (batch, maxm)
  | e :: es, maxm, batch =>
    let (ru, maxm') := row_updates_for rank_map maxm e
    let batch' :=
      if ru.isEmpty then batch
      else batch ++ [⟨e.anime.anime_name, e.row, ru⟩]
    region_phase3 rank_map es maxm' batch'

/-- The comprehensive rank map (lines 577-585): rows with a positive
accumulated total, sorted descending (stable), densely ranked. -/
def comp_rank_map (avg_sum : List (Int × Int)) : List (Int × Nat) :=
  let valid := avg_sum.filter fun p => 0 < p.2
  let sortedL := valid.insertionSort fun x y => y.2 ≤ x.2
  ranksOf (sortedL.map (·.1)) 0 []

/-- The `row_to_name_map` dict comprehension over the first region
(lines 593-594). -/
def row_to_name : List AnimeItem → List (Int × String) → Except Unit (List (Int × String))
  | [], m => .ok m
  | a :: rest, m =>
    match rowIdxOf a with
    | none => .error ()
    | some r => row_to_name rest (dictInsert m r a.anime_name)

/-- The comprehensive-rank update loop (lines 596-611): rows whose name is
missing from the first region, or falsy, are skipped; otherwise the rank
value or a clearing `""` is emitted. -/
def comp_updates (rank_map : List (Int × Nat)) (names : List (Int × String)) :
    List (Int × String) → List RowPlan
  | [] => []
  | (row, cell) :: rest =>
    match List.lookup row names with
    | none => comp_updates rank_map names rest
    | some nm =>
      if nm = "" then comp_updates rank_map names rest
      else
        let v : CellVal :=
          match List.lookup row rank_map with
          | some r => .int (r : Int)
          | none => .str ""
        ⟨nm, row, [⟨cell, v⟩]⟩ :: comp_updates rank_map names rest

/-- The outcome of `process_single_sheet` toward the backing store:
an early return on empty sheet data, the quota abort from inside a region
loop, or the final update batch with the write/no-write decision
(lines 613-627). -/
inductive SheetOutcome where
  | emptySheet
  | quotaAbort
  | plan (batch : List RowPlan) (wrote : Bool)
deriving DecidableEq, Repr

/-- The region loop of `process_single_sheet` (lines 464-567). -/
def sheet_regions (st : SheetState) (maxm : List (Int × Int)) (batch : List RowPlan) :
    List (String × List AnimeItem) →
    Except Unit (Option (List RowPlan)) × SheetState
  | [] => (.ok (some batch), st)
  | (_, anime_list) :: rest =>
    match region_phase1 st anime_list with
    | (.abort, st') => (.ok none, st')
    | (.raised, st') => (.error (), st')
    | (.entries es, st') =>
      let rmap := region_rank_map es
      let (batch', maxm') := region_phase3 rmap es maxm batch
      sheet_regions st' maxm' batch' rest

/-- `process_single_sheet` (lines 443-627), from the already-read sheet
data (regions in iteration order) and the network oracle. -/
def process_single_sheet (quota : Bool) (sheet : List (String × List AnimeItem))
    (envs : List FetchEnv) : Except Unit SheetOutcome × Bool :=
  if sheet.isEmpty then (.ok .emptySheet, quota)
  else
    match sheet_regions ⟨quota, envs, [], []⟩ [] [] sheet with
    | (.error u, st) => (.error u, st.quota)
    | (.ok none, st) => (.ok .quotaAbort, st.quota)
    | (.ok (some batch), st) =>
      let compRes : Except Unit (List RowPlan) :=
        if !st.quota && !st.comp_cells.isEmpty then
          match sheet.head? with
          | some (_, first_region) =>
            match row_to_name first_region [] with
            | .error u => .error u
            | .ok names =>
              .ok (comp_updates (comp_rank_map st.avg_sum) names st.comp_cells)
          | none => .ok []
        else .ok []
      match compRes with
      | .error u => (.error u, st.quota)
      | .ok cb =>
        let batch' := batch ++ cb
        (.ok (.plan batch' (!batch'.isEmpty && !st.quota)), st.quota)

/-! ## The backing-store API call (`AnimeAPI._call`, lines 32-57) -/

/-- One response to a Google-Apps-Script POST: a non-200 status, a 200 with
a malformed JSON body, or a decoded JSON body with its `status`, `message`
and `data` fields. -/
inductive GasResp where
  | httpErr (code : Nat)
  | badJson
  | body (status : String) (message : String) (data : PyVal)

/-- `AnimeAPI._call` (lines 32-57): every transport/protocol error raises;
only a `status == 'success'` body returns its data. -/
def anime_api_call (r : GasResp) : Except String PyVal :=
  match r with
  | .httpErr code => .error ("HTTP Error: " ++ toString code)
  | .badJson => .error "Invalid JSON response"
  | .body st msg d =>
    if st = "success" then .ok d else .error ("API Error: " ++ msg)

/-! # Helper lemmas -/

theorem strIn_iff {a b : String} : strIn a b = true ↔ a.data <:+: b.data := by
  simp [strIn]

theorem strIn_append_self (t a : String) : strIn a (t ++ a) = true := by
  rw [strIn_iff, String.data_append]
  exact ⟨t.data, [], by simp⟩

theorem strIn_empty (t : String) : strIn "" t = true := by
  rw [strIn_iff]
  exact ⟨[], t.data, by simp⟩

/-! # Claim C3: quota short-circuit -/

/-- C3: once the quota-exhausted flag is set, `get_playlist_items` and
`get_video_stats` perform zero network requests and return their sentinel
values with the flag still set, and `process_anime` returns `None` (with
zero requests) — for every oracle, i.e. for the remainder of the run. -/
theorem C3_quota_short_circuit :
    (∀ pages, get_playlist_items true pages = (.ok none, true, 0)) ∧
    (∀ now ids resps, get_video_stats true now ids resps = (.ok [], true, 0)) ∧
    (∀ env anime, process_anime true env anime = (.ok none, true, 0)) :=
  ⟨fun _ => rfl, fun _ _ _ => rfl, fun _ _ => rfl⟩

/-! # Claim C9: transport/protocol error surfacing -/

/-- C9 counterexample: a non-2xx (and non-404) playlist response is *not*
surfaced as a raised error — `get_playlist_items` swallows it and returns
the empty item list (source lines 142-144), so the sheet's remaining work
is not aborted. -/
theorem C9_cex :
    get_playlist_items false [.httpErr 500] = (.ok (some (.items [])), false, 1) := rfl

/-- C9 amended: a malformed 200-JSON body from either YouTube endpoint
raises and propagates; a non-2xx playlist response yields the empty item
list without raising; a non-2xx stats batch is silently skipped (the loop
continues with the gathered map); only the backing-store client
(`AnimeAPI._call`) raises on every non-200 status and malformed body. -/
theorem C9_amended :
    (∀ pages, get_playlist_items false (.badJson :: pages) = (.error (), false, 1)) ∧
    (∀ code pages, get_playlist_items false (.httpErr code :: pages) =
      (.ok (some (.items [])), false, 1)) ∧
    (∀ now b bs rs m q (code : Nat),
      videosLoop now (b :: bs) (.httpErr code :: rs) m q =
        ((videosLoop now bs rs m q).1, (videosLoop now bs rs m q).2.1,
         (videosLoop now bs rs m q).2.2 + 1)) ∧
    (∀ now b bs rs m q, videosLoop now (b :: bs) (VideosResp.badJson :: rs) m q =
      (.error (), q, 1)) ∧
    (∀ code, anime_api_call (.httpErr code) = .error ("HTTP Error: " ++ toString code)) ∧
    (anime_api_call .badJson = .error "Invalid JSON response") := by
  refine ⟨fun _ => rfl, fun _ _ => rfl, fun now b bs rs m q code => ?_,
    fun _ _ _ _ _ _ => rfl, fun _ => rfl, rfl⟩
  show (let r := videosLoop now bs rs m q
        (r.1, r.2.1, r.2.2 + 1) : Except Unit StatsMap × Bool × Nat) = _
  rfl

/-! # Claim C6: the ignore-exception rule -/

/-- C6 counterexample: the title `"PV CM"` is excluded, its matching
keyword `"CM"` has the registered exception `"testCM動畫名稱"`, yet
appending that exception to the title leaves it excluded, because the
unrelated keyword `"PV"` still matches. -/
theorem C6_cex :
    is_ignored_keyword "PV CM" = true ∧
    strIn "CM" "PV CM" = true ∧
    List.lookup "CM" ignore_keywords_exceptions = some ["testCM動畫名稱"] ∧
    is_ignored_keyword ("PV CM" ++ "testCM動畫名稱") = true :=
  ⟨by decide, by decide, rfl, by decide⟩

/-- C6 amended: appending the registered exception of `"CM"` reverses an
ignored title to not-ignored, provided no ignore keyword other than `"CM"`
occurs in the extended title. -/
theorem C6_amended (t : String)
    (_hign : is_ignored_keyword t = true)
    (hother : ∀ kw ∈ ignore_keywords, kw ≠ "CM" →
      strIn kw (t ++ "testCM動畫名稱") = false) :
    is_ignored_keyword (t ++ "testCM動畫名稱") = false := by
  unfold is_ignored_keyword
  rw [List.any_eq_false]
  intro kw hkw
  by_cases hcm : kw = "CM"
  · subst hcm
    have hexc : List.lookup "CM" ignore_keywords_exceptions = some ["testCM動畫名稱"] := rfl
    simp only [hexc]
    simp [strIn_append_self]
  · have hno := hother kw hkw hcm
    simp only []
    split
    · simp
    · simp [hno]

/-- C6 witness: a title ignored only through `"CM"` becomes not-ignored
after the exception is appended. -/
theorem C6_witness :
    is_ignored_keyword "ACMB" = true ∧
    is_ignored_keyword ("ACMB" ++ "testCM動畫名稱") = false :=
  ⟨by decide, C6_amended "ACMB" (by decide) (by decide)⟩

/-! # Claim C7: the offset specification encoding -/

/-- C7 counterexample: `"5"` is not a two-element numeric array, so by the
claim it should act as a literal substring filter and keep `"Episode 5"`;
but `json.loads("5")` succeeds, the integer `5` becomes `offset_range`,
its unpacking fails, and every title — including `"Episode 5"` — is
rejected. -/
theorem C7_cex :
    json_loads "5" = some (.int 5) ∧
    strIn "5" "Episode 5" = true ∧
    offset_filter "5" "Episode 5" = false :=
  ⟨rfl, by decide, by decide⟩

/-- On a two-element `int` array, the `try` block of `is_in_offset` is the
inclusive range test. -/
theorem rangeCheck_int (a b : Int) (q : ℚ) :
    rangeCheck (.list [.int a, .int b]) q =
      (decide ((a : ℚ) ≤ q) && decide (q ≤ (b : ℚ))) := by
  simp only [rangeCheck, unpack2, pyLeNum, pyNumLe]
  by_cases h1 : (a : ℚ) ≤ q
  · simp [h1]
  · simp [h1]

/-- C7 amended: a string decoding to a two-element `int` array is an
inclusive numeric range on the parsed episode index; any other *truthy*
decoded value that fails two-target unpacking rejects every title; a
*falsy* decoded value imposes no restriction at all; only a string that
fails JSON decoding acts as a literal substring requirement. -/
theorem C7_amended (s t : String) :
    (∀ a b : Int, json_loads s = some (.list [.int a, .int b]) →
      (offset_filter s t = true ↔
        ∃ ep, parse_episode_number t = some ep ∧
          (a : ℚ) ≤ ep.toRat ∧ ep.toRat ≤ (b : ℚ))) ∧
    (∀ v, json_loads s = some v → pyTruthy v = true → unpack2 v = none →
      offset_filter s t = false) ∧
    (∀ v, json_loads s = some v → pyTruthy v = false →
      offset_filter s t = true) ∧
    (json_loads s = none → offset_filter s t = strIn s t) := by
  have hnil : json_loads "" = none := rfl
  refine ⟨fun a b hl => ?_, fun v hl ht hu => ?_, fun v hl ht => ?_, fun hl => ?_⟩
  · by_cases hs : s = ""
    · rw [hs, hnil] at hl; exact Option.noConfusion hl
    · simp only [offset_filter, resolve_offset, if_neg hs, hl]
      simp only [offset_pass, pyTruthy, is_in_offset]
      cases hp : parse_episode_number t with
      | none => simp
      | some ep =>
        simp only [List.isEmpty_cons, Bool.not_false, if_true, Bool.and_true,
          Bool.not_true, Bool.false_eq_true, if_false, rangeCheck_int,
          Bool.and_eq_true, decide_eq_true_eq, Option.some.injEq]
        constructor
        · rintro ⟨h1, h2⟩
          exact ⟨ep, rfl, h1, h2⟩
        · rintro ⟨ep', hep', h1, h2⟩
          cases hep'
          exact ⟨h1, h2⟩
  · by_cases hs : s = ""
    · rw [hs, hnil] at hl; exact Option.noConfusion hl
    · simp only [offset_filter, resolve_offset, if_neg hs, hl]
      simp only [offset_pass, ht, is_in_offset, rangeCheck, hu]
      cases hp : parse_episode_number t <;> simp
  · by_cases hs : s = ""
    · rw [hs, hnil] at hl; exact Option.noConfusion hl
    · simp only [offset_filter, resolve_offset, if_neg hs, hl]
      simp [offset_pass, ht]
  · by_cases hs : s = ""
    · subst hs
      simp only [offset_filter, resolve_offset, if_pos rfl]
      simp [offset_pass, strIn_empty]
    · simp only [offset_filter, resolve_offset, if_neg hs, hl]
      simp only [offset_pass, is_in_offset]
      cases hin : strIn s t <;> simp [hs, hin]

/-- C7 witness: the numeric-range clause at `"[2,3]"` / `"Episode 2"` and
the substring clause at the non-JSON string `"xyz"`. -/
theorem C7_witness :
    offset_filter "[2,3]" "Episode 2" = true ∧
    offset_filter "xyz" "AxyzB" = strIn "xyz" "AxyzB" := by
  constructor
  · exact ((C7_amended "[2,3]" "Episode 2").1 2 3 rfl).mpr
      ⟨.pint 2, by decide, by norm_num [PyNum.toRat], by norm_num [PyNum.toRat]⟩
  · exact (C7_amended "xyz" "AxyzB").2.2.2 rfl

/-! # Claim C8: the episode parser -/

/-- `findSome?` yields `none` when every element maps to `none`. -/
theorem findSome?_none {α β : Type} (f : α → Option β) :
    ∀ l : List α, (∀ a ∈ l, f a = none) → l.findSome? f = none
  | [], _ => rfl
  | a :: l, h => by
    rw [List.findSome?_cons, h a (by simp)]
    exact findSome?_none f l fun x hx => h x (by simp [hx])

/-- `findSome?` returns the image of the first element whose image is not
`none`. -/
theorem findSome?_at {α β : Type} (f : α → Option β) :
    ∀ (l : List α) (i : Nat) (p : α) (b : β), l[i]? = some p → f p = some b →
      (∀ j, j < i → ∀ q, l[j]? = some q → f q = none) → l.findSome? f = some b
  | [], i, p, b, hp, _, _ => by simp at hp
  | a :: l, 0, p, b, hp, hb, _ => by
    simp only [List.getElem?_cons_zero, Option.some.injEq] at hp
    subst hp
    rw [List.findSome?_cons, hb]
  | a :: l, i + 1, p, b, hp, hb, hprev => by
    rw [List.findSome?_cons, hprev 0 (Nat.succ_pos i) a (by simp)]
    exact findSome?_at f l i p b (by simpa using hp) hb
      fun j hj q hq => hprev (j + 1) (Nat.succ_lt_succ hj) q (by simpa using hq)

/-- `capToNum` with its `let` bindings expanded, for case analysis. -/
theorem capToNum_eq (cap : List Char) :
    capToNum cap =
      match cap.dropWhile isDigitCh with
      | '.' :: fs =>
        if ((digitsToNat (cap.takeWhile isDigitCh) : ℚ) +
              (digitsToNat fs : ℚ) / (10 : ℚ) ^ fs.length).den = 1
        then .pint ((digitsToNat (cap.takeWhile isDigitCh) : ℚ) +
              (digitsToNat fs : ℚ) / (10 : ℚ) ^ fs.length).num
        else .pfloat ((digitsToNat (cap.takeWhile isDigitCh) : ℚ) +
              (digitsToNat fs : ℚ) / (10 : ℚ) ^ fs.length)
      | _ => .pint (digitsToNat (cap.takeWhile isDigitCh)) := rfl

/-- C8: the parser tries its fixed pattern list in order and the first
matching pattern wins; a captured whole-number decimal is normalised to an
integer (`pfloat` results always have a non-trivial denominator) and
non-whole decimals are preserved; when no pattern matches the result is
`none`, not an error.  Concretely, `"Episode 05"` yields the integer `5`,
`"EP 1.0"` the integer `1`, `"第1.5話"` the float `3/2`, and
`"Random Title"` is unparseable. -/
theorem C8_priority :
    (∀ t : String, (∀ p ∈ patterns, reSearch p t.data = none) →
      parse_episode_number t = none) ∧
    (∀ (t : String) (i : Nat) (p : EpPattern) (cap : List Char),
      patterns[i]? = some p → reSearch p t.data = some cap →
      (∀ j, j < i → ∀ q, patterns[j]? = some q → reSearch q t.data = none) →
      parse_episode_number t = some (capToNum cap)) ∧
    (∀ cap q, capToNum cap = .pfloat q → q.den ≠ 1) ∧
    parse_episode_number "Episode 05" = some (.pint 5) ∧
    parse_episode_number "EP 1.0" = some (.pint 1) ∧
    parse_episode_number "第1.5話" = some (.pfloat (3 / 2)) ∧
    parse_episode_number "Random Title" = none := by
  refine ⟨?_, ?_, ?_, by decide, ?_, ?_, by decide⟩
  · intro t h
    exact findSome?_none _ patterns fun p hp => by rw [h p hp]; rfl
  · intro t i p cap hp hcap hprev
    exact findSome?_at _ patterns i p (capToNum cap) hp (by rw [hcap]; rfl)
      fun j hj q hq => by rw [hprev j hj q hq]; rfl
  · intro cap q h
    rw [capToNum_eq] at h
    split at h
    · split at h
      · exact PyNum.noConfusion h
      · rename_i hden
        cases h
        exact hden
    · exact PyNum.noConfusion h
  · have h2 : parse_episode_number "EP 1.0" = some (capToNum ['1', '.', '0']) := rfl
    rw [h2, capToNum_eq]
    rw [show ['1', '.', '0'].dropWhile isDigitCh = ['.', '0'] from by decide,
      show ['1', '.', '0'].takeWhile isDigitCh = ['1'] from by decide]
    norm_num [show digitsToNat ['1'] = 1 from by decide,
      show digitsToNat ['0'] = 0 from by decide]
  · have h2 : parse_episode_number "第1.5話" = some (capToNum ['1', '.', '5']) := rfl
    rw [h2, capToNum_eq]
    rw [show ['1', '.', '5'].dropWhile isDigitCh = ['.', '5'] from by decide,
      show ['1', '.', '5'].takeWhile isDigitCh = ['1'] from by decide]
    norm_num [show digitsToNat ['1'] = 1 from by decide,
      show digitsToNat ['5'] = 5 from by decide]

/-! # The aggregation characterisation (claims C1 and C10) -/

/-- The real-integer view samples of a video list, in list order. -/
def samples (videos : List PlaylistItem) (stats : StatsMap) : List Int :=
  videos.filterMap (sample stats)

theorem lookup_mem {α β : Type} [BEq α] [LawfulBEq α] {k : α} {b : β} :
    ∀ {l : List (α × β)}, List.lookup k l = some b → (k, b) ∈ l
  | [], h => by simp [List.lookup] at h
  | (k', v') :: l, h => by
    rw [List.lookup_cons] at h
    by_cases hk : (k == k') = true
    · simp only [hk] at h
      cases h
      rw [eq_of_beq hk]
      exact List.mem_cons_self _ _
    · rw [Bool.not_eq_true] at hk
      simp only [hk] at h
      exact List.mem_cons_of_mem _ (lookup_mem h)

theorem lookupAppend {α β : Type} [BEq α] (k : α) :
    ∀ (l₁ l₂ : List (α × β)),
      List.lookup k (l₁ ++ l₂) = ((List.lookup k l₁).or (List.lookup k l₂))
  | [], _ => rfl
  | (k', v') :: l₁, l₂ => by
    rw [List.cons_append, List.lookup_cons, List.lookup_cons]
    cases k == k' with
    | true => rfl
    | false => exact lookupAppend k l₁ l₂

theorem lookup_dictInsert {α β : Type} [DecidableEq α] [BEq α] [LawfulBEq α]
    (k k' : α) (v : β) :
    ∀ m : List (α × β),
      List.lookup k (dictInsert m k' v) =
        if k = k' then some v else List.lookup k m
  | [] => by
    by_cases h : k = k'
    · simp [dictInsert, List.lookup_cons, h]
    · simp [dictInsert, List.lookup_cons, h,
        show (k == k') = false from beq_eq_false_iff_ne.mpr h]
  | (a, b) :: m => by
    simp only [dictInsert]
    by_cases ha : a = k'
    · rw [if_pos ha]
      by_cases h : k = k'
      · simp [List.lookup_cons, h, beq_iff_eq]
      · have hka : ¬ k = a := fun hc => h (hc.trans ha)
        simp [List.lookup_cons, h,
          show (k == k') = false from beq_eq_false_iff_ne.mpr h,
          show (k == a) = false from beq_eq_false_iff_ne.mpr hka]
    · rw [if_neg ha]
      rw [List.lookup_cons, List.lookup_cons]
      by_cases h : k = a
      · have hkk : ¬ k = k' := fun hc => ha (h ▸ hc)
        simp [h, hkk, ha, beq_iff_eq]
      · simp only [show (k == a) = false from beq_eq_false_iff_ne.mpr h]
        exact lookup_dictInsert k k' v m

/-- Field-wise characterisation of the reduction loop of lines 388-403:
`total`/`valid_view_count` accumulate the real samples, `has_any_view_data`
records their existence, and `first_ep_views` is decided by the first video
of the (sorted) list. -/
theorem foldl_reduceStep_spec (stats : StatsMap) :
    ∀ (l : List PlaylistItem) (acc : ReduceAcc),
      (l.foldl (reduceStep stats) acc).total = acc.total + (samples l stats).sum ∧
      (l.foldl (reduceStep stats) acc).cnt = acc.cnt + (samples l stats).length ∧
      (l.foldl (reduceStep stats) acc).hasAny
        = (acc.hasAny || !(samples l stats).isEmpty) ∧
      (l.foldl (reduceStep stats) acc).first =
        (match acc.first with
         | some c => some c
         | none =>
           match l with
           | [] => none
           | v :: _ => some (match sample stats v with
                             | some n => CellVal.int n
                             | none => CellVal.str "---"))
  | [], acc => by cases hacc : acc.first <;> simp [samples, hacc]
  | v :: l, acc => by
    cases hv : sample stats v with
    | some n =>
      have hs2 : samples (v :: l) stats = n :: samples l stats := by
        simp only [samples, List.filterMap_cons, hv]
      cases hacc : acc.first with
      | some c =>
        have hred : reduceStep stats acc v =
            ⟨acc.total + n, acc.cnt + 1, some c, true⟩ := by
          simp [reduceStep, hv, hacc]
        have ih := foldl_reduceStep_spec stats l (reduceStep stats acc v)
        rw [hred] at ih
        obtain ⟨ih1, ih2, ih3, ih4⟩ := ih
        rw [List.foldl_cons, hred]
        refine ⟨?_, ?_, ?_, ?_⟩
        · rw [ih1, hs2, List.sum_cons]
          dsimp only
          omega
        · rw [ih2, hs2, List.length_cons]
          dsimp only
          omega
        · rw [ih3, hs2]
          simp
        · exact ih4
      | none =>
        have hred : reduceStep stats acc v =
            ⟨acc.total + n, acc.cnt + 1, some (.int n), true⟩ := by
          simp [reduceStep, hv, hacc]
        have ih := foldl_reduceStep_spec stats l (reduceStep stats acc v)
        rw [hred] at ih
        obtain ⟨ih1, ih2, ih3, ih4⟩ := ih
        rw [List.foldl_cons, hred]
        refine ⟨?_, ?_, ?_, ?_⟩
        · rw [ih1, hs2, List.sum_cons]
          dsimp only
          omega
        · rw [ih2, hs2, List.length_cons]
          dsimp only
          omega
        · rw [ih3, hs2]
          simp
        · rw [ih4]
          simp [hv]
    | none =>
      have hs2 : samples (v :: l) stats = samples l stats := by
        simp only [samples, List.filterMap_cons, hv]
      cases hacc : acc.first with
      | some c =>
        have hred : reduceStep stats acc v = acc := by
          simp [reduceStep, hv, hacc]
        have ih := foldl_reduceStep_spec stats l (reduceStep stats acc v)
        rw [hred] at ih
        obtain ⟨ih1, ih2, ih3, ih4⟩ := ih
        rw [List.foldl_cons, hred]
        refine ⟨by rw [ih1, hs2], by rw [ih2, hs2], by rw [ih3, hs2], ?_⟩
        rw [ih4, hacc]
      | none =>
        have hred : reduceStep stats acc v =
            ⟨acc.total, acc.cnt, some (.str "---"), acc.hasAny⟩ := by
          simp [reduceStep, hv, hacc]
        have ih := foldl_reduceStep_spec stats l (reduceStep stats acc v)
        rw [hred] at ih
        obtain ⟨ih1, ih2, ih3, ih4⟩ := ih
        rw [List.foldl_cons, hred]
        refine ⟨by rw [ih1, hs2], by rw [ih2, hs2], by rw [ih3, hs2], ?_⟩
        rw [ih4]
        simp [hv]

/-- The permutation between the samples of the sorted and the original
video lists. -/
theorem samples_sort_perm (videos : List PlaylistItem) (stats : StatsMap) :
    (samples (sortVideos videos) stats).Perm (samples videos stats) :=
  (List.perm_insertionSort _ videos).filterMap (sample stats)

/-- Full characterisation of `computeStats` (lines 368-420). -/
theorem computeStats_spec (videos : List PlaylistItem) (stats : StatsMap) :
    (samples videos stats = [] → computeStats videos stats = defaultResult) ∧
    (samples videos stats ≠ [] →
      computeStats videos stats =
        { avg := .int (pyIntOfRat (((samples videos stats).sum : ℚ) /
            ((samples videos stats).length : ℚ))),
          total := .int (samples videos stats).sum,
          first :=
            (match sortVideos videos with
             | [] => CellVal.str "---"
             | v :: _ => match sample stats v with
                         | some n => CellVal.int n
                         | none => CellVal.str "---"),
          valid_count := .int (videos.length : Int),
          ep_count_update := .null }) := by
  have hperm := samples_sort_perm videos stats
  have hspec := foldl_reduceStep_spec stats (sortVideos videos) ⟨0, 0, none, false⟩
  obtain ⟨h1, h2, h3, h4⟩ := hspec
  have hsum : (samples (sortVideos videos) stats).sum = (samples videos stats).sum :=
    hperm.sum_eq
  have hlen : (samples (sortVideos videos) stats).length
      = (samples videos stats).length := hperm.length_eq
  constructor
  · intro hnil
    have hnil' : samples (sortVideos videos) stats = [] :=
      List.eq_nil_of_length_eq_zero (by rw [hlen, hnil]; rfl)
    unfold computeStats accResult
    rw [h3, hnil']
    rfl
  · intro hne
    have hne' : samples (sortVideos videos) stats ≠ [] := by
      intro hc
      exact hne (List.eq_nil_of_length_eq_zero (by rw [← hlen, hc]; rfl))
    unfold computeStats accResult
    rw [h3]
    rw [show (!(samples (sortVideos videos) stats).isEmpty) = true by
      simpa using hne']
    simp only [Bool.false_or, Bool.not_true, Bool.false_eq_true, if_false]
    have hcnt : (0 : Nat) + (samples (sortVideos videos) stats).length
        = (samples videos stats).length := by rw [Nat.zero_add, hlen]
    have hpos : 0 < (samples videos stats).length := List.length_pos.mpr hne
    congr 1
    · rw [h2, hcnt, if_pos hpos, h1, hsum, Int.zero_add]
    · rw [h1, hsum, Int.zero_add]
    · rw [h4]
      cases hs : sortVideos videos with
      | nil =>
        exfalso
        apply hne'
        rw [hs]
        rfl
      | cons v rest => rfl

/-- C1 counterexample data: one surviving playlist item whose single view
sample is hidden. -/
def c1Anime : AnimeItem :=
  ⟨some "https://www.youtube.com/playlist?list=PL1", none,
   "B2", "W", "C2", "D2", "E2", "F2", "G2", ""⟩

/-- C1 counterexample network oracle. -/
def c1Env : FetchEnv :=
  ⟨[.page [⟨some "v1", "第1話"⟩] false], [.ok [⟨"v1", none, none⟩]], 0⟩

/-- C1 counterexample: with one surviving item whose sample is hidden, the
aggregator returns the untouched default dict — so `valid_episode_count`
is `0`, not the claimed count of surviving items (`1`): line 407 returns
before line 418 ever assigns `valid_count`. -/
theorem C1_cex :
    (process_anime false c1Env c1Anime).1 = .ok (some defaultResult) ∧
    defaultResult.valid_count = CellVal.int 0 ∧
    ([(⟨"v1", "第1話"⟩ : PlaylistItem)].filter fun it =>
      passes_filter none none it.title).length = 1 :=
  ⟨by with_unfolding_all rfl, rfl, by decide⟩

/-- C1 amended: when every surviving item's sample is hidden/unavailable
the aggregator returns the default dict (average and total are the
`"---"` sentinel and `valid_episode_count` is `0`, not the surviving-item
count); when at least one real sample exists, `total` is the sum of the
real samples, `average = floor(total / valid_view_count)` with
`valid_view_count` counting only real samples, and `valid_episode_count`
is the number of surviving items.  (View counts are non-negative, as the
statistics provider guarantees.) -/
theorem C1_amended (videos : List PlaylistItem) (stats : StatsMap)
    (hpos : ∀ kv ∈ stats, 0 ≤ kv.2.getD 0) :
    (samples videos stats = [] → computeStats videos stats = defaultResult) ∧
    (samples videos stats ≠ [] →
      (computeStats videos stats).total = .int (samples videos stats).sum ∧
      (computeStats videos stats).avg =
        .int ⌊((samples videos stats).sum : ℚ) / ((samples videos stats).length : ℚ)⌋ ∧
      (computeStats videos stats).valid_count = .int (videos.length : Int)) := by
  obtain ⟨hnil, hcons⟩ := computeStats_spec videos stats
  refine ⟨hnil, fun hne => ?_⟩
  have h := hcons hne
  have hsum : (0 : Int) ≤ (samples videos stats).sum := by
    apply List.sum_nonneg
    intro n hn
    obtain ⟨v, _, hv⟩ := List.mem_filterMap.mp hn
    have hkv := lookup_mem (k := v.id) (b := some n) (by
      cases hl : List.lookup v.id stats with
      | none => rw [sample, hl] at hv; exact Option.noConfusion hv
      | some o =>
        rw [sample, hl] at hv
        cases o with
        | none => exact Option.noConfusion hv
        | some m => cases hv; rfl)
    have := hpos _ hkv
    simpa using this
  have hq : (0 : ℚ) ≤ ((samples videos stats).sum : ℚ) /
      ((samples videos stats).length : ℚ) := by
    apply div_nonneg
    · exact_mod_cast hsum
    · positivity
  rw [h]
  exact ⟨rfl, by simp only [pyIntOfRat, if_pos hq], rfl⟩

/-- C1 witness: items `[real 100, hidden]` give total `100`,
average `⌊100/1⌋ = 100` and a surviving-item count of `2`. -/
theorem C1_witness :
    (computeStats [⟨"a", "第1話"⟩, ⟨"b", "第2話"⟩]
      [("a", some 100), ("b", none)]).total = .int 100 ∧
    (computeStats [⟨"a", "第1話"⟩, ⟨"b", "第2話"⟩]
      [("a", some 100), ("b", none)]).avg = .int 100 ∧
    (computeStats [⟨"a", "第1話"⟩, ⟨"b", "第2話"⟩]
      [("a", some 100), ("b", none)]).valid_count = .int 2 := by
  have h := (C1_amended [⟨"a", "第1話"⟩, ⟨"b", "第2話"⟩]
    [("a", some 100), ("b", none)] (by decide)).2 (by decide)
  rw [show samples [⟨"a", "第1話"⟩, ⟨"b", "第2話"⟩] [("a", some 100), ("b", none)]
    = [100] from by decide] at h
  refine ⟨h.1, ?_, h.2.2⟩
  rw [h.2.1]
  norm_num

/-- Elements on which `f` is `none` may be dropped before a `filterMap`. -/
theorem filterMap_filter_of_none {α β : Type} (f : α → Option β) (p : α → Bool)
    (h : ∀ a, p a = false → f a = none) :
    ∀ l : List α, l.filterMap f = (l.filter p).filterMap f
  | [] => rfl
  | a :: l => by
    rw [List.filterMap_cons, List.filter_cons]
    cases hp : p a with
    | true =>
      simp only [if_true]
      rw [List.filterMap_cons]
      cases hf : f a with
      | none => exact filterMap_filter_of_none f p h l
      | some b => rw [filterMap_filter_of_none f p h l]
    | false =>
      simp only [Bool.false_eq_true, if_false]
      rw [h a hp]
      exact filterMap_filter_of_none f p h l

/-- An id absent from every provider response never enters the stats map
built by `get_video_stats`. -/
theorem stats_fetch_omits (vid : String) :
    ∀ (now : Int) (ids : List String) (resps : List VideosResp),
      (∀ r ∈ resps, ∀ its, r = VideosResp.ok its → ∀ e ∈ its, e.id ≠ vid) →
      ∀ m, (get_video_stats false now ids resps).1 = .ok m →
        List.lookup vid m = none := by
  have hentry : ∀ now m e m', List.lookup vid m = none → e.id ≠ vid →
      procEntry now m e = .ok m' → List.lookup vid m' = none := by
    intro now m e m' hm he hp
    unfold procEntry at hp
    have hins : ∀ o : Option Int, List.lookup vid (dictInsert m e.id o) = none := by
      intro o
      rw [lookup_dictInsert, if_neg (fun h => he h.symm), hm]
    rcases e with ⟨eid, esched, eview⟩
    dsimp only at hp hins he
    rcases esched with _ | sched
    · rcases eview with _ | s
      · cases hp; exact hins none
      · dsimp only at hp
        by_cases hs : s ≠ ""
        · rw [if_pos hs] at hp
          cases hc : pyIntOfString s with
          | none => rw [hc] at hp; exact Except.noConfusion hp
          | some n => rw [hc] at hp; cases hp; exact hins (some n)
        · rw [if_neg hs] at hp; cases hp; exact hins none
    · rcases sched with _ | t
      · rcases eview with _ | s
        · cases hp; exact hins none
        · dsimp only at hp
          by_cases hs : s ≠ ""
          · rw [if_pos hs] at hp
            cases hc : pyIntOfString s with
            | none => rw [hc] at hp; exact Except.noConfusion hp
            | some n => rw [hc] at hp; cases hp; exact hins (some n)
          · rw [if_neg hs] at hp; cases hp; exact hins none
      · dsimp only at hp
        by_cases ht : t > now
        · rw [if_pos ht] at hp; cases hp; exact hins none
        · rw [if_neg ht] at hp
          rcases eview with _ | s
          · cases hp; exact hins none
          · dsimp only at hp
            by_cases hs : s ≠ ""
            · rw [if_pos hs] at hp
              cases hc : pyIntOfString s with
              | none => rw [hc] at hp; exact Except.noConfusion hp
              | some n => rw [hc] at hp; cases hp; exact hins (some n)
            · rw [if_neg hs] at hp; cases hp; exact hins none
  have hitems : ∀ now its m m', List.lookup vid m = none →
      (∀ e ∈ its, e.id ≠ vid) → procItems now m its = .ok m' →
      List.lookup vid m' = none := by
    intro now its
    induction its with
    | nil => intro m m' hm _ hp; cases hp; exact hm
    | cons e es ih =>
      intro m m' hm hids hp
      unfold procItems at hp
      cases hpe : procEntry now m e with
      | error u => rw [hpe] at hp; exact Except.noConfusion hp
      | ok m1 =>
        rw [hpe] at hp
        exact ih m1 m' (hentry now m e m1 hm (hids e (by simp)) hpe)
          (fun x hx => hids x (by simp [hx])) hp
  have hloop : ∀ now (bs : List (List String)) (rs : List VideosResp) m q m',
      List.lookup vid m = none →
      (∀ r ∈ rs, ∀ its, r = VideosResp.ok its → ∀ e ∈ its, e.id ≠ vid) →
      (videosLoop now bs rs m q).1 = .ok m' → List.lookup vid m' = none := by
    intro now bs
    induction bs with
    | nil => intro rs m q m' hm _ hp; cases hp; exact hm
    | cons b bs ih =>
      intro rs m q m' hm hresp hp
      cases rs with
      | nil => cases hp; exact hm
      | cons r rs =>
        cases r with
        | quotaErr => cases hp; exact hm
        | httpErr code =>
          rcases hx : videosLoop now bs rs m q with ⟨res, q2, n⟩
          simp only [videosLoop, hx] at hp
          exact ih rs m q m' hm (fun x hx2 => hresp x (by simp [hx2]))
            (by rw [hx]; exact hp)
        | badJson => exact Except.noConfusion hp
        | ok its =>
          simp only [videosLoop] at hp
          cases hpi : procItems now m its with
          | error u =>
            rw [hpi] at hp
            exact Except.noConfusion hp
          | ok m1 =>
            rw [hpi] at hp
            exact ih rs m1 q m'
              (hitems now its m m1 hm (hresp _ (by simp) its rfl) hpi)
              (fun x hx2 => hresp x (by simp [hx2])) hp
  intro now ids resps hresp m hp
  unfold get_video_stats at hp
  by_cases hinit : (false || ids.isEmpty) = true
  · rw [if_pos hinit] at hp
    cases hp
    rfl
  · rw [if_neg hinit] at hp
    exact hloop now (ids.toChunks 50) resps [] false m rfl hresp hp

/-- C10: a video id entirely absent from the stats map behaves exactly
like an explicitly hidden (`None`) sample: the aggregation result is
unchanged if the id is added as hidden; the item contributes nothing to
the real samples (hence to total/average/denominator); it still counts
toward `valid_episode_count` whenever any real sample exists; if it is
first in episode order, the first-episode value is the hidden `"---"`
marker; and the stats fetcher indeed omits from its map every id missing
from all provider responses. -/
theorem C10_omitted_like_hidden (videos : List PlaylistItem) (stats : StatsMap)
    (vid : String) (habs : List.lookup vid stats = none) :
    computeStats videos stats = computeStats videos (stats ++ [(vid, none)]) ∧
    samples videos stats = samples (videos.filter fun v => v.id ≠ vid) stats ∧
    (samples videos stats ≠ [] →
      (computeStats videos stats).valid_count = .int (videos.length : Int)) ∧
    (∀ v rest, sortVideos videos = v :: rest → v.id = vid →
      samples videos stats ≠ [] →
      (computeStats videos stats).first = .str "---") ∧
    (∀ (now : Int) (ids : List String) (resps : List VideosResp),
      (∀ r ∈ resps, ∀ its, r = VideosResp.ok its → ∀ e ∈ its, e.id ≠ vid) →
      ∀ m, (get_video_stats false now ids resps).1 = .ok m →
        List.lookup vid m = none) := by
  have hsample : ∀ v : PlaylistItem, sample (stats ++ [(vid, none)]) v = sample stats v := by
    intro v
    unfold sample
    rw [lookupAppend]
    by_cases hv : v.id = vid
    · rw [hv, habs, List.lookup_cons]
      simp
    · cases hl : List.lookup v.id stats with
      | none =>
        rw [List.lookup_cons, show (v.id == vid) = false from beq_eq_false_iff_ne.mpr hv]
        rfl
      | some o => rfl
  have hvidnone : ∀ v : PlaylistItem, v.id = vid → sample stats v = none := by
    intro v hv
    unfold sample
    rw [hv, habs]
    rfl
  refine ⟨?_, ?_, ?_, ?_, stats_fetch_omits vid⟩
  · have hstep : reduceStep (stats ++ [(vid, none)]) = reduceStep stats := by
      funext acc v
      unfold reduceStep
      rw [hsample]
    unfold computeStats
    rw [hstep]
  · exact filterMap_filter_of_none (sample stats) _
      (fun a hpa => hvidnone a (by simpa using hpa)) videos
  · intro hne
    rw [(computeStats_spec videos stats).2 hne]
  · intro v rest hsort hv hne
    rw [(computeStats_spec videos stats).2 hne, hsort]
    simp only [hvidnone v hv]

/-- C10 witness: with item `"x"` omitted by the provider and item `"a"`
at 100 views, the result is unchanged by adding `"x"` as hidden, the
surviving-item count includes `"x"`, and the first-episode value (episode
1 is `"x"`) is the hidden marker. -/
theorem C10_witness :
    (computeStats [⟨"x", "第1話"⟩, ⟨"a", "第2話"⟩] [("a", some 100)] =
      computeStats [⟨"x", "第1話"⟩, ⟨"a", "第2話"⟩] [("a", some 100), ("x", none)]) ∧
    (computeStats [⟨"x", "第1話"⟩, ⟨"a", "第2話"⟩]
      [("a", some 100)]).valid_count = .int 2 ∧
    (computeStats [⟨"x", "第1話"⟩, ⟨"a", "第2話"⟩]
      [("a", some 100)]).first = .str "---" := by
  have h := C10_omitted_like_hidden [⟨"x", "第1話"⟩, ⟨"a", "第2話"⟩]
    [("a", some 100)] "x" (by decide)
  exact ⟨h.1, h.2.2.1 (by decide),
    h.2.2.2.1 ⟨"x", "第1話"⟩ [⟨"a", "第2話"⟩] (by decide) rfl (by decide)⟩

/-! # Ranking machinery (claims C2, C4 and C5) -/

theorem dictInsert_of_not_mem {α β : Type} [DecidableEq α] (k : α) (v : β) :
    ∀ m : List (α × β), (∀ p ∈ m, p.1 ≠ k) → dictInsert m k v = m ++ [(k, v)]
  | [], _ => rfl
  | (a, b) :: m, h => by
    simp only [dictInsert]
    rw [if_neg (h (a, b) (by simp)), dictInsert_of_not_mem k v m
      fun p hp => h p (by simp [hp])]
    rfl

/-- With fresh, pairwise-distinct rows, the rank-building loop of
lines 513-515 appends `(row, index + 1)` pairs in order. -/
theorem ranksOf_eq :
    ∀ (rows : List Int) (i : Nat) (m : List (Int × Nat)), rows.Nodup →
      (∀ p ∈ m, p.1 ∉ rows) →
      ranksOf rows i m = m ++ rows.zip (List.range' (i + 1) rows.length)
  | [], i, m, _, _ => by simp [ranksOf]
  | r :: rows, i, m, hnd, hfresh => by
    rw [ranksOf, dictInsert_of_not_mem r (i + 1) m
      fun p hp hc => hfresh p hp (hc ▸ List.mem_cons_self r rows)]
    rw [ranksOf_eq rows (i + 1) (m ++ [(r, i + 1)]) (List.Nodup.of_cons hnd)
      (fun p hp => by
        rcases List.mem_append.mp hp with hp1 | hp1
        · exact fun hc => hfresh p hp1 (List.mem_cons_of_mem r hc)
        · rcases List.mem_singleton.mp hp1 with rfl
          exact (List.nodup_cons.mp hnd).1)]
    rw [List.length_cons, List.range'_succ, List.zip_cons_cons, List.append_assoc]
    rfl

theorem lookup_zip_eq_none {k : Int} :
    ∀ (rows : List Int) (vals : List Nat), k ∉ rows →
      List.lookup k (rows.zip vals) = none
  | [], _, _ => rfl
  | _ :: _, [], _ => rfl
  | r :: rows, v :: vals, h => by
    rw [List.zip_cons_cons, List.lookup_cons,
      show (k == r) = false from beq_eq_false_iff_ne.mpr (fun hc => h (hc ▸ List.mem_cons_self r rows))]
    exact lookup_zip_eq_none rows vals fun hc => h (List.mem_cons_of_mem r hc)

theorem lookup_zip_get :
    ∀ (rows : List Int) (vals : List Nat), rows.Nodup →
      ∀ (n : Nat) (hn : n < rows.length) (hv : n < vals.length),
        List.lookup (rows.get ⟨n, hn⟩) (rows.zip vals) = some (vals.get ⟨n, hv⟩)
  | r :: rows, v :: vals, hnd, 0, hn, hv => by
    rw [List.zip_cons_cons, List.lookup_cons]
    simp
  | r :: rows, v :: vals, hnd, n + 1, hn, hv => by
    rw [List.zip_cons_cons, List.lookup_cons]
    have hne : (rows.get ⟨n, by simpa using hn⟩) ≠ r := by
      intro hc
      exact (List.nodup_cons.mp hnd).1 (hc ▸ List.get_mem rows _ _)
    rw [show ((r :: rows).get ⟨n + 1, hn⟩ == r) = false from
      beq_eq_false_iff_ne.mpr (by simpa using hne)]
    exact lookup_zip_get rows vals (List.Nodup.of_cons hnd) n _ _

/-- The filtered, qualifying entries of a region, in input order. -/
def regionQualifying (rs : List RegionEntry) : List RegionEntry :=
  rs.filter fun e => (avgInt e.stats).isSome

/-- `region_rank_map` is the sorted qualifying rows zipped with the ranks
`1..N`. -/
theorem region_rank_map_eq (rs : List RegionEntry)
    (hnd : ((regionQualifying rs).map (·.row)).Nodup) :
    region_rank_map rs =
      ((region_valid_sorted rs).map (·.row)).zip
        (List.range' 1 (regionQualifying rs).length) := by
  have hperm : (region_valid_sorted rs).Perm (regionQualifying rs) :=
    List.perm_insertionSort _ _
  have hnd2 : ((region_valid_sorted rs).map (·.row)).Nodup :=
    ((hperm.map (·.row)).nodup_iff).mpr hnd
  have hlen : (region_valid_sorted rs).length = (regionQualifying rs).length :=
    hperm.length_eq
  unfold region_rank_map
  rw [ranksOf_eq _ 0 [] hnd2 (by simp)]
  rw [List.nil_append, List.length_map, hlen]

/-- A two-element sublist yields two ordered positions. -/
theorem pair_sublist_index {α : Type} {x y : α} :
    ∀ {l : List α}, List.Sublist [x, y] l →
      ∃ (i j : Fin l.length), (i : Nat) < (j : Nat) ∧ l.get i = x ∧ l.get j = y := by
  intro l h
  induction l with
  | nil => exact absurd h (by simp)
  | cons a l ih =>
    cases h with
    | cons _ h2 =>
      obtain ⟨i, j, hij, hx, hy⟩ := ih h2
      refine ⟨⟨i + 1, by simpa using i.isLt⟩, ⟨j + 1, by simpa using j.isLt⟩,
        by simpa using Nat.succ_lt_succ hij, ?_, ?_⟩
      · simpa using hx
      · simpa using hy
    | cons₂ _ h2 =>
      have hy : y ∈ l := List.singleton_sublist.mp h2
      obtain ⟨j, hj⟩ := List.mem_iff_get.mp hy
      exact ⟨⟨0, by simp⟩, ⟨j + 1, by simpa using j.isLt⟩, Nat.succ_pos j,
        rfl, by simpa using hj⟩

/-- A row that does not qualify gets its rank cell cleared whenever the
cell reference is present (lines 524-530). -/
theorem row_updates_rank_clear (rank_map : List (Int × Nat))
    (maxm : List (Int × Int)) (e : RegionEntry)
    (hcell : e.anime.rank_cell ≠ "")
    (hlook : List.lookup e.row rank_map = none) :
    (⟨e.anime.rank_cell, .str ""⟩ : RowUpdate) ∈ (row_updates_for rank_map maxm e).1 := by
  unfold row_updates_for
  simp only [hlook, if_pos hcell]
  cases e.stats with
  | none => exact List.mem_cons_self _ _
  | some s =>
    repeat' split
    all_goals simp

/-- An entry with no real-integer average is absent from the region's rank
map. -/
theorem rank_map_lookup_none (rs : List RegionEntry)
    (hnd : (rs.map (·.row)).Nodup) (e : RegionEntry) (he : e ∈ rs)
    (hnone : avgInt e.stats = none) :
    List.lookup e.row (region_rank_map rs) = none := by
  have hndq : ((regionQualifying rs).map (·.row)).Nodup :=
    List.Nodup.sublist (List.Sublist.map _ (List.filter_sublist rs)) hnd
  rw [region_rank_map_eq rs hndq]
  apply lookup_zip_eq_none
  intro hc
  obtain ⟨e', he', hrow⟩ := List.mem_map.mp hc
  have he'q : e' ∈ regionQualifying rs := by
    unfold region_valid_sorted at he'
    rw [List.mem_insertionSort] at he'
    exact he'
  have he'rs : e' ∈ rs := (List.mem_filter.mp he'q).1
  have heq : e' = e := List.inj_on_of_nodup_map hnd he'rs he hrow
  have hq : (avgInt e'.stats).isSome = true := by
    simpa using (List.mem_filter.mp he'q).2
  rw [heq, hnone] at hq
  exact Bool.noConfusion hq

/-- C4: region ranking considers exactly the entries whose average is a
real integer; ranks are the consecutive values `1..N`; a strictly larger
average gets a strictly smaller rank; ties keep their input order
(stability); and every entry with null stats or a non-integer average is
absent from the rank map and — when a rank cell reference exists — has
its rank cell emitted as a clear. -/
theorem C4_region_ranking (rs : List RegionEntry)
    (hnd : (rs.map (·.row)).Nodup) :
    ((region_rank_map rs).map Prod.snd = List.range' 1 (regionQualifying rs).length) ∧
    (∀ e ∈ rs, (avgInt e.stats).isSome = true →
      ∃ r, List.lookup e.row (region_rank_map rs) = some r ∧
        1 ≤ r ∧ r ≤ (regionQualifying rs).length) ∧
    (∀ x ∈ rs, ∀ y ∈ rs, (avgInt x.stats).isSome = true →
      (avgInt y.stats).isSome = true →
      (avgInt y.stats).getD 0 < (avgInt x.stats).getD 0 →
      ∀ rx ry, List.lookup x.row (region_rank_map rs) = some rx →
        List.lookup y.row (region_rank_map rs) = some ry → rx < ry) ∧
    (∀ x y, List.Sublist [x, y] rs → (avgInt x.stats).isSome = true →
      (avgInt y.stats).isSome = true →
      (avgInt x.stats).getD 0 = (avgInt y.stats).getD 0 →
      ∀ rx ry, List.lookup x.row (region_rank_map rs) = some rx →
        List.lookup y.row (region_rank_map rs) = some ry → rx < ry) ∧
    (∀ e ∈ rs, avgInt e.stats = none →
      List.lookup e.row (region_rank_map rs) = none ∧
      (e.anime.rank_cell ≠ "" → ∀ maxm,
        (⟨e.anime.rank_cell, .str ""⟩ : RowUpdate) ∈
          (row_updates_for (region_rank_map rs) maxm e).1)) := by
  haveI hTot : IsTotal RegionEntry
      (fun x y => (avgInt y.stats).getD 0 ≤ (avgInt x.stats).getD 0) :=
    ⟨fun a b => le_total _ _⟩
  haveI hTrans : IsTrans RegionEntry
      (fun x y => (avgInt y.stats).getD 0 ≤ (avgInt x.stats).getD 0) :=
    ⟨fun _ _ _ hab hbc => le_trans hbc hab⟩
  have hndq : ((regionQualifying rs).map (·.row)).Nodup :=
    List.Nodup.sublist (List.Sublist.map _ (List.filter_sublist rs)) hnd
  have hperm : (region_valid_sorted rs).Perm (regionQualifying rs) :=
    List.perm_insertionSort _ _
  have hnds : ((region_valid_sorted rs).map (·.row)).Nodup :=
    ((hperm.map (·.row)).nodup_iff).mpr hndq
  have hlen : (region_valid_sorted rs).length = (regionQualifying rs).length :=
    hperm.length_eq
  have hsorted : (region_valid_sorted rs).Pairwise
      (fun x y => (avgInt y.stats).getD 0 ≤ (avgInt x.stats).getD 0) :=
    List.sorted_insertionSort _ _
  have hmap := region_rank_map_eq rs hndq
  -- the canonical position of a qualifying entry and its rank
  have hposition : ∀ e ∈ regionQualifying rs,
      ∃ (i : Nat) (hi : i < (region_valid_sorted rs).length),
        (region_valid_sorted rs).get ⟨i, hi⟩ = e ∧
        List.lookup e.row (region_rank_map rs) = some (i + 1) := by
    intro e he
    have he2 : e ∈ region_valid_sorted rs := by
      unfold region_valid_sorted
      rw [List.mem_insertionSort]
      exact he
    obtain ⟨⟨i, hi⟩, hget⟩ := List.mem_iff_get.mp he2
    refine ⟨i, hi, hget, ?_⟩
    rw [hmap]
    have hi2 : i < ((region_valid_sorted rs).map (·.row)).length := by
      simpa using hi
    have hi3 : i < (List.range' 1 (regionQualifying rs).length).length := by
      simpa [hlen] using hi
    have hrow : ((region_valid_sorted rs).map (·.row)).get ⟨i, hi2⟩ = e.row := by
      rw [List.get_map]
      exact congrArg (fun z => z.row) hget
    rw [← hrow, lookup_zip_get _ _ hnds i hi2 hi3]
    congr 1
    simp [List.get_eq_getElem, List.getElem_range', Nat.add_comm]
  -- uniqueness of positions in the sorted list
  have hgetinj : ∀ (i j : Fin (region_valid_sorted rs).length),
      (region_valid_sorted rs).get i = (region_valid_sorted rs).get j → i = j := by
    intro i j hij
    have hnds2 : (region_valid_sorted rs).Nodup := List.Nodup.of_map _ hnds
    exact (List.Nodup.get_inj_iff hnds2).mp hij
  -- a qualifying entry's rank is uniquely its position + 1
  have hrank_eq : ∀ e ∈ regionQualifying rs, ∀ r,
      List.lookup e.row (region_rank_map rs) = some r →
      ∃ (hi : r - 1 < (region_valid_sorted rs).length),
        (region_valid_sorted rs).get ⟨r - 1, hi⟩ = e ∧ 1 ≤ r := by
    intro e he r hr
    obtain ⟨i, hi, hget, hlook⟩ := hposition e he
    rw [hlook] at hr
    cases hr
    exact ⟨by simpa using hi, by simpa using hget, Nat.succ_le_succ (Nat.zero_le i)⟩
  refine ⟨?_, ?_, ?_, ?_, ?_⟩
  · rw [hmap]
    rw [List.map_snd_zip]
    simp [hlen]
  · intro e he hq
    have heq : e ∈ regionQualifying rs := List.mem_filter.mpr ⟨he, by simpa using hq⟩
    obtain ⟨i, hi, _, hlook⟩ := hposition e heq
    exact ⟨i + 1, hlook, Nat.succ_le_succ (Nat.zero_le i),
      by rw [← hlen]; exact hi⟩
  · intro x hx y hy hqx hqy hlt rx ry hrx hry
    have hxq : x ∈ regionQualifying rs := List.mem_filter.mpr ⟨hx, by simpa using hqx⟩
    have hyq : y ∈ regionQualifying rs := List.mem_filter.mpr ⟨hy, by simpa using hqy⟩
    obtain ⟨hix, hgx, hrx1⟩ := hrank_eq x hxq rx hrx
    obtain ⟨hiy, hgy, hry1⟩ := hrank_eq y hyq ry hry
    rcases Nat.lt_trichotomy (rx - 1) (ry - 1) with h | h | h
    · omega
    · exfalso
      have : x = y := by
        rw [← hgx, ← hgy]
        congr 1
        exact Fin.ext h
      rw [this] at hlt
      exact absurd hlt (lt_irrefl _)
    · exfalso
      have := (List.pairwise_iff_get.mp hsorted) ⟨ry - 1, hiy⟩ ⟨rx - 1, hix⟩ h
      rw [hgx, hgy] at this
      exact absurd (lt_of_lt_of_le hlt this) (lt_irrefl _)
  · intro x y hsub hqx hqy heq rx ry hrx hry
    have hxrs : x ∈ rs := hsub.subset (by simp)
    have hyrs : y ∈ rs := hsub.subset (by simp)
    have hxq : x ∈ regionQualifying rs := List.mem_filter.mpr ⟨hxrs, by simpa using hqx⟩
    have hyq : y ∈ regionQualifying rs := List.mem_filter.mpr ⟨hyrs, by simpa using hqy⟩
    have hsubq : List.Sublist [x, y] (regionQualifying rs) := by
      have h1 := List.Sublist.filter (fun e => (avgInt e.stats).isSome) hsub
      rwa [show List.filter (fun e => (avgInt e.stats).isSome) [x, y] = [x, y] by
        simp [List.filter_cons, hqx, hqy]] at h1
    have hsubs : List.Sublist [x, y] (region_valid_sorted rs) := by
      unfold region_valid_sorted
      exact List.pair_sublist_insertionSort (le_of_eq heq.symm) hsubq
    obtain ⟨i, j, hij, hgx2, hgy2⟩ := pair_sublist_index hsubs
    obtain ⟨hix, hgx, _⟩ := hrank_eq x hxq rx hrx
    obtain ⟨hiy, hgy, _⟩ := hrank_eq y hyq ry hry
    have hi_eq : i = (⟨rx - 1, hix⟩ : Fin (region_valid_sorted rs).length) :=
      hgetinj _ _ (by rw [hgx2, hgx])
    have hj_eq : j = (⟨ry - 1, hiy⟩ : Fin (region_valid_sorted rs).length) :=
      hgetinj _ _ (by rw [hgy2, hgy])
    have : rx - 1 < ry - 1 := by
      have hi' := congrArg Fin.val hi_eq
      have hj' := congrArg Fin.val hj_eq
      simp at hi' hj'
      omega
    omega
  · intro e he hnone
    have hlookn : List.lookup e.row (region_rank_map rs) = none :=
      rank_map_lookup_none rs hnd e he hnone
    exact ⟨hlookn, fun hcell maxm =>
      row_updates_rank_clear (region_rank_map rs) maxm e hcell hlookn⟩

/-- C8 witness: pattern priority decides `"Tập 7 Episode 9"` — the
`Episode` rule (priority 2) beats the `Tập` rule (priority 4) even though
`Tập 7` occurs earlier in the title. -/
theorem C8_witness : parse_episode_number "Tập 7 Episode 9" = some (.pint 9) := by
  have h := C8_priority.2.1 "Tập 7 Episode 9" 1 ⟨"Episode".data, true, []⟩ ['9']
    (by decide) (by decide)
    (fun j hj q hq => by
      have hj0 : j = 0 := by omega
      subst hj0
      rw [show patterns[0]? = some ⟨"第".data, false, "集話".data⟩ from by decide] at hq
      cases hq
      decide)
  rw [h]
  decide

/-- C4 witness data: averages `500, 500, 300` in rows `2, 3, 4` plus a
row `5` with null stats. -/
def c4e (row : Int) (st : Option AnimeResult) : RegionEntry :=
  ⟨⟨none, none, "", "", "R", "", "", "", "", ""⟩, row, st⟩

/-- A concrete qualifying result with the given average. -/
def c4res (n : Int) : AnimeResult := ⟨.int n, .int n, .int n, .int 1, .null⟩

/-- The C4 witness region. -/
def c4rs : List RegionEntry :=
  [c4e 2 (some (c4res 500)), c4e 3 (some (c4res 500)),
   c4e 4 (some (c4res 300)), c4e 5 none]

/-- C4 witness: averages `[500, 500, 300]` in input order rows `2, 3, 4`
yield ranks `1, 2, 3` (the tie keeps input order), and the null-stats row
`5` is absent from the rank map. -/
theorem C4_witness :
    List.lookup 2 (region_rank_map c4rs) = some 1 ∧
    List.lookup 3 (region_rank_map c4rs) = some 2 ∧
    List.lookup 4 (region_rank_map c4rs) = some 3 ∧
    List.lookup 5 (region_rank_map c4rs) = none := by
  refine ⟨by decide, by decide, by decide, ?_⟩
  exact ((C4_region_ranking c4rs (by decide)).2.2.2.2 (c4e 5 none) (by decide) rfl).1

/-! # Claim C2: the removed-playlist ("delisted") path -/

/-- C2 counterexample data: one series whose playlist lookup returns 404,
with every output cell configured. -/
def c2Anime : AnimeItem :=
  ⟨some "https://www.youtube.com/playlist?list=PL2", none,
   "B5", "Z", "C5", "D5", "E5", "F5", "G5", "H5"⟩

/-- The C2 counterexample sheet: one region with the one series. -/
def c2Sheet : List (String × List AnimeItem) := [("R", [c2Anime])]

/-- The update batch the sheet processing actually produces for the
removed series. -/
def c2Batch : List RowPlan :=
  [⟨"Z", 5, [⟨"C5", .str ""⟩, ⟨"D5", .str "已下架"⟩,
             ⟨"E5", .str "已下架"⟩, ⟨"F5", .str "已下架"⟩]⟩,
   ⟨"Z", 5, [⟨"H5", .str ""⟩]⟩]

/-- C2 counterexample: for a removed playlist, the rank cell `C5` and the
comprehensive-rank cell `H5` are written as the empty string (a clear,
not the `"已下架"` marker) and the episode-count cell `G5` is not
written at all — the claim's "uniform delisted marker across all
configured cells" is false. -/
theorem C2_cex :
    process_single_sheet false c2Sheet [⟨[.notFound], [], 0⟩] =
      (.ok (.plan c2Batch true), false) ∧
    (c2Batch.all fun plan => plan.updates.all fun u => !(u.cell == "G5")) = true ∧
    (c2Batch.all fun plan => plan.updates.all fun u =>
      (!(u.cell == "C5") || (u.value == .str "")) &&
      (!(u.cell == "H5") || (u.value == .str ""))) = true := by
  refine ⟨by with_unfolding_all rfl, by decide, by decide⟩

/-- C2 amended: a removed (`404`) playlist makes `process_anime` return
the uniform `"已下架"` dict; such a series is excluded from region
ranking and from the cross-region accumulator; its rank cell (when
configured) is emitted as a clearing `""` — not as the delisted marker —
its average/total/first-episode cells get the `"已下架"` marker, and its
episode-count cell is left untouched (the `"已下架" > int` comparison
raises and is swallowed). -/
theorem C2_removed (rs : List RegionEntry) (e : RegionEntry)
    (maxm m : List (Int × Int))
    (he : e ∈ rs) (hrem : e.stats = some removedResult)
    (hnd : (rs.map (·.row)).Nodup) :
    (∀ (anime : AnimeItem) (pages : List PlaylistPageResp) (vids : List VideosResp)
      (now : Int) (pid : String), get_playlist_id anime.link_url = some pid →
      process_anime false ⟨.notFound :: pages, vids, now⟩ anime =
        (.ok (some removedResult), false, 1)) ∧
    avgInt e.stats = none ∧
    accum_avg_step m e = m ∧
    List.lookup e.row (region_rank_map rs) = none ∧
    row_updates_for (region_rank_map rs) maxm e =
      ((((if e.anime.rank_cell ≠ "" then [⟨e.anime.rank_cell, .str ""⟩] else []) ++
         (if e.anime.avg_view_cell ≠ "" then [⟨e.anime.avg_view_cell, .str "已下架"⟩] else [])) ++
        (if e.anime.total_view_cell ≠ "" then [⟨e.anime.total_view_cell, .str "已下架"⟩] else [])) ++
       (if e.anime.first_view_cell ≠ "" then [⟨e.anime.first_view_cell, .str "已下架"⟩] else []),
       maxm) := by
  have havg : avgInt e.stats = none := by rw [hrem]; rfl
  have hlookn : List.lookup e.row (region_rank_map rs) = none :=
    rank_map_lookup_none rs hnd e he havg
  refine ⟨?_, havg, ?_, hlookn, ?_⟩
  · intro anime pages vids now pid hpid
    unfold process_anime
    rcases hro : resolve_offset anime.offset with ⟨orange, ostr⟩
    simp only [Bool.false_eq_true, if_false, hro, hpid]
    rfl
  · unfold accum_avg_step
    rw [havg]
  · unfold row_updates_for
    rw [hrem, hlookn]
    rfl

/-- The C2 witness region entry: the removed series at row `5`. -/
def c2e : RegionEntry := ⟨c2Anime, 5, some removedResult⟩

/-- C2 witness: the amended behaviour at the concrete removed series. -/
theorem C2_witness :
    process_anime false ⟨[.notFound], [], 0⟩ c2Anime =
      (.ok (some removedResult), false, 1) ∧
    List.lookup 5 (region_rank_map [c2e]) = none ∧
    row_updates_for (region_rank_map [c2e]) [] c2e =
      ([⟨"C5", .str ""⟩, ⟨"D5", .str "已下架"⟩,
        ⟨"E5", .str "已下架"⟩, ⟨"F5", .str "已下架"⟩], []) := by
  have h := C2_removed [c2e] c2e [] [] (by simp) rfl (by decide)
  refine ⟨h.1 c2Anime [] [] 0 "PL2" (by with_unfolding_all rfl), h.2.2.2.1, ?_⟩
  rw [h.2.2.2.2]
  rfl

/-! # Claim C5: comprehensive ranking -/

/-- The sorted positive-total rows of the comprehensive ranking
(lines 577-584), named for the proofs; definitionally the list inside
`comp_rank_map`. -/
def comp_sorted (avg_sum : List (Int × Int)) : List (Int × Int) :=
  (avg_sum.filter fun p => 0 < p.2).insertionSort fun x y => y.2 ≤ x.2

theorem comp_rank_map_eq (avg_sum : List (Int × Int))
    (hnd : (avg_sum.map Prod.fst).Nodup) :
    comp_rank_map avg_sum =
      ((comp_sorted avg_sum).map (·.1)).zip
        (List.range' 1 (comp_sorted avg_sum).length) := by
  have hndf : ((avg_sum.filter fun p => 0 < p.2).map Prod.fst).Nodup :=
    List.Nodup.sublist (List.Sublist.map _ (List.filter_sublist avg_sum)) hnd
  have hperm : (comp_sorted avg_sum).Perm (avg_sum.filter fun p => 0 < p.2) :=
    List.perm_insertionSort _ _
  have hnds : ((comp_sorted avg_sum).map (·.1)).Nodup :=
    ((hperm.map (·.1)).nodup_iff).mpr hndf
  show ranksOf ((comp_sorted avg_sum).map (·.1)) 0 [] = _
  rw [ranksOf_eq _ 0 [] hnds (by simp)]
  simp

theorem comp_rank_lookup_isSome (avg_sum : List (Int × Int))
    (hnd : (avg_sum.map Prod.fst).Nodup) (row : Int) :
    (List.lookup row (comp_rank_map avg_sum)).isSome = true ↔
      ∃ p ∈ avg_sum, p.1 = row ∧ 0 < p.2 := by
  have hndf : ((avg_sum.filter fun p => 0 < p.2).map Prod.fst).Nodup :=
    List.Nodup.sublist (List.Sublist.map _ (List.filter_sublist avg_sum)) hnd
  have hperm : (comp_sorted avg_sum).Perm (avg_sum.filter fun p => 0 < p.2) :=
    List.perm_insertionSort _ _
  have hnds : ((comp_sorted avg_sum).map (·.1)).Nodup :=
    ((hperm.map (·.1)).nodup_iff).mpr hndf
  rw [comp_rank_map_eq avg_sum hnd]
  constructor
  · intro hs
    rcases Option.isSome_iff_exists.mp hs with ⟨v, hv⟩
    have hmem := lookup_mem hv
    have hrow : row ∈ (comp_sorted avg_sum).map (·.1) := (List.mem_zip hmem).1
    rcases List.mem_map.mp hrow with ⟨p, hp, hpe⟩
    have hpf : p ∈ avg_sum.filter fun q => 0 < q.2 := hperm.mem_iff.mp hp
    rcases List.mem_filter.mp hpf with ⟨hpa, hpos⟩
    exact ⟨p, hpa, hpe, of_decide_eq_true hpos⟩
  · rintro ⟨p, hp, hrow, hpos⟩
    have hpf : p ∈ avg_sum.filter fun q => 0 < q.2 :=
      List.mem_filter.mpr ⟨hp, decide_eq_true hpos⟩
    have hps : p ∈ comp_sorted avg_sum := hperm.mem_iff.mpr hpf
    have hrm : row ∈ (comp_sorted avg_sum).map (·.1) :=
      List.mem_map.mpr ⟨p, hps, hrow⟩
    obtain ⟨⟨n, hn⟩, hget⟩ := List.mem_iff_get.mp hrm
    have hv : n < (List.range' 1 (comp_sorted avg_sum).length).length := by
      simpa using hn
    have hlk := lookup_zip_get ((comp_sorted avg_sum).map (·.1))
      (List.range' 1 (comp_sorted avg_sum).length) hnds n hn hv
    rw [hget] at hlk
    rw [hlk]
    rfl

theorem comp_updates_clear (rank_map : List (Int × Nat)) (names : List (Int × String))
    (row : Int) (cell : String) (nm : String) (hnm : List.lookup row names = some nm)
    (hne : nm ≠ "") (hrank : List.lookup row rank_map = none) :
    ∀ (ccells : List (Int × String)), (row, cell) ∈ ccells →
      (⟨nm, row, [⟨cell, .str ""⟩]⟩ : RowPlan) ∈ comp_updates rank_map names ccells
  | [], h => absurd h (List.not_mem_nil _)
  | (r, c) :: rest, h => by
    rcases List.mem_cons.mp h with heq | hmem
    · injection heq with h1 h2
      subst h1
      subst h2
      simp only [comp_updates, hnm, if_neg hne, hrank]
      exact List.mem_cons_self _ _
    · have ih := comp_updates_clear rank_map names row cell nm hnm hne hrank rest hmem
      simp only [comp_updates]
      cases hlook : List.lookup r names with
      | none => exact ih
      | some nm' =>
        by_cases h0 : nm' = ""
        · simp only [if_pos h0]
          exact ih
        · simp only [if_neg h0]
          exact List.mem_cons_of_mem _ ih

theorem comp_updates_skip (rank_map : List (Int × Nat)) (names : List (Int × String))
    (row : Int) (hnm : List.lookup row names = none) :
    ∀ (ccells : List (Int × String)) (plan : RowPlan),
      plan ∈ comp_updates rank_map names ccells → plan.target_row ≠ row
  | [], plan, h => absurd h (List.not_mem_nil _)
  | (r, c) :: rest, plan, h => by
    revert h
    simp only [comp_updates]
    cases hlook : List.lookup r names with
    | none => exact fun h => comp_updates_skip rank_map names row hnm rest plan h
    | some nm' =>
      by_cases h0 : nm' = ""
      · simp only [if_pos h0]
        exact fun h => comp_updates_skip rank_map names row hnm rest plan h
      · simp only [if_neg h0]
        intro h
        rcases List.mem_cons.mp h with heq | hmem
        · subst heq
          intro hc
          have hc' : r = row := hc
          rw [hc', hnm] at hlook
          cases hlook
        · exact comp_updates_skip rank_map names row hnm rest plan hmem

/-- C5: comprehensive ranking ranks exactly the rows with a positive
accumulated cross-region total (the rank map has an entry for a row iff a
positive total was accumulated for it); a scheduled comprehensive-rank
cell whose row resolves to a truthy series name in the FIRST region but
has no rank does get a clearing `""` update; but a comprehensive-rank
cell whose row is absent from the first region's name map is skipped
entirely — the cell is left untouched, contradicting the claim's "never
left untouched". -/
theorem C5_comprehensive (avg_sum : List (Int × Int))
    (rank_map : List (Int × Nat)) (names ccells : List (Int × String))
    (row : Int) (cell nm : String)
    (hnd : (avg_sum.map Prod.fst).Nodup) :
    ((List.lookup row (comp_rank_map avg_sum)).isSome = true ↔
      ∃ p ∈ avg_sum, p.1 = row ∧ 0 < p.2) ∧
    ((row, cell) ∈ ccells → List.lookup row names = some nm → nm ≠ "" →
      List.lookup row rank_map = none →
      (⟨nm, row, [⟨cell, .str ""⟩]⟩ : RowPlan) ∈ comp_updates rank_map names ccells) ∧
    (List.lookup row names = none →
      ∀ plan ∈ comp_updates rank_map names ccells, plan.target_row ≠ row) := by
  refine ⟨comp_rank_lookup_isSome avg_sum hnd row, ?_, ?_⟩
  · intro hmem hnm hne hrank
    exact comp_updates_clear rank_map names row cell nm hnm hne hrank ccells hmem
  · intro hnm plan hplan
    exact comp_updates_skip rank_map names row hnm ccells plan hplan

/-- The C5 counterexample schedule: `c5A` fills the first region with no
comprehensive-rank cell; `c5B` sits in the second region with the
comprehensive-rank cell `H9`. -/
def c5A : AnimeItem := ⟨none, none, "B5", "A", "", "", "", "", "", ""⟩

/-- The second-region series of the C5 counterexample (row `9`,
comprehensive-rank cell `H9`, no playlist link). -/
def c5B : AnimeItem := ⟨none, none, "B9", "B", "", "", "", "", "", "H9"⟩

/-- The C5 counterexample sheet. -/
def c5Sheet : List (String × List AnimeItem) := [("R1", [c5A]), ("R2", [c5B])]

/-- C5 counterexample: row `9` has a comprehensive-rank cell reference
(`H9`) and no accumulated total, yet the produced update batch is empty —
the cell is left untouched, not cleared, because row `9` does not appear
in the first region's row-to-name map (lines 593-598). -/
theorem C5_cex :
    process_single_sheet false c5Sheet [] = (.ok (.plan [] false), false) ∧
    c5B.comp_rank_cell = "H9" :=
  ⟨by with_unfolding_all rfl, rfl⟩

/-- C5 witness: with accumulated totals `row 2 ↦ 100, row 3 ↦ 0`, the rank
map has an entry exactly for row `2`; row `3` (named in the first region,
total `0`) gets its `H3` cleared; and the only emitted plan targets
row `2`, not the unresolvable row `9`. -/
theorem C5_witness :
    (List.lookup (2 : Int) (comp_rank_map [(2, 100), (3, 0)])).isSome = true ∧
    (⟨"B", 3, [⟨"H3", .str ""⟩]⟩ : RowPlan) ∈
      comp_updates (comp_rank_map [(2, 100), (3, 0)]) [(2, "A"), (3, "B")]
        [(2, "H2"), (3, "H3"), (9, "H9")] ∧
    (⟨"A", 2, [⟨"H2", .int 1⟩]⟩ : RowPlan).target_row ≠ 9 := by
  refine ⟨?_, ?_, ?_⟩
  · exact (C5_comprehensive [(2, 100), (3, 0)] [] [] [] 2 "" "" (by decide)).1.mpr
      ⟨(2, 100), by decide, rfl, by decide⟩
  · exact (C5_comprehensive [(2, 100), (3, 0)] (comp_rank_map [(2, 100), (3, 0)])
      [(2, "A"), (3, "B")] [(2, "H2"), (3, "H3"), (9, "H9")] 3 "H3" "B"
      (by decide)).2.1 (by decide) (by decide) (by decide) (by decide)
  · exact (C5_comprehensive [(2, 100), (3, 0)] (comp_rank_map [(2, 100), (3, 0)])
      [(2, "A"), (3, "B")] [(2, "H2"), (3, "H3"), (9, "H9")] 9 "H9" ""
      (by decide)).2.2 (by decide) ⟨"A", 2, [⟨"H2", .int 1⟩]⟩ (by decide)

end YtViewCount
